import Mathlib

/-!
# The `IntPtr` owning handle of `2_copyConstructor.cpp` and its neighbours

A shallow embedding of the copy-and-swap smart pointer `IntPtr`
(`src/2_copyConstructor.cpp`, lines 217-258) over an explicit model of the
free store, followed by the properties of its copy constructor, copy
assignment, `Swap`, dereference and destructor.  It is followed by the
three other classes `T` of the same file (two `IntPtr` members, two `int`
members, a `Big*` member with the output of `Big`) and by the small
classes of `1_constructors.cpp`, `6_field_initialization.cpp`,
`8_fields.cpp` and `9_inheritance.cpp` (construction, member lookup,
virtual calls, `Clone`, `Date`, multiple inheritance).

* `int*` is a natural number, `NULL` is `0`; `int` values are integers (the
  handle only copies them, no arithmetic is performed on them).  Where the
  code computes with `int`, `addInt` and `mulInt` give the result within the
  32-bit range and `none` for signed overflow.
* The free store is a finite association list of live `int` objects together
  with a log of the pointers that were passed to `delete`.
* `operator new` is a parameter: any function from the free store to an
  optional address that never hands out `NULL` or a live address.  `none` is
  `std::bad_alloc`.
* A computation ends in `Res.ok`, in `Res.thrown` (an exception that leaves
  the function, carrying the state at that point) or in `Res.undefined`
  (undefined behaviour: a read, write or `delete` through a pointer that is
  not live, or the use of an object that does not exist).
-/

namespace OopCpp

/-- Raw pointer to `int`. -/
abbrev Ptr := Nat

/-- The null pointer. -/
def NULL : Ptr := 0

/-- Lookup of an address in the list of live cells. -/
def findCell : List (Ptr × Int) → Ptr → Option Int
  | [], _ => none
  | (q, v) :: rest, p => if q = p then some v else findCell rest p

/-- Removal of every cell stored at an address. -/
def dropCell : List (Ptr × Int) → Ptr → List (Ptr × Int)
  | [], _ => []
  | (q, v) :: rest, p => if q = p then dropCell rest p else (q, v) :: dropCell rest p

/-- The free store: the live `int` objects made by `new`, and the log of the
non-null pointers given to `delete` (most recent first). -/
structure Heap where
  cells : List (Ptr × Int)
  released : List Ptr
deriving DecidableEq, Repr

namespace Heap

/-- The free store with no live object. -/
def empty : Heap := ⟨[], []⟩

/-- Value of the live object at `p`; `none` when `p` is null or not live. -/
def read (σ : Heap) (p : Ptr) : Option Int :=
  if p = NULL then none else findCell σ.cells p

/-- Placement of value `v` at address `p`. -/
def write (σ : Heap) (p : Ptr) (v : Int) : Heap :=
  { σ with cells := (p, v) :: dropCell σ.cells p }

/-- Release of the object at `p`, recorded in the log. -/
def free (σ : Heap) (p : Ptr) : Heap :=
  { cells := dropCell σ.cells p, released := p :: σ.released }

/-- Largest address among the live cells (`0` when there is none). -/
def top (σ : Heap) : Ptr := (σ.cells.map Prod.fst).foldr max 0

end Heap

/-- Outcome of a computation: normal completion, an exception leaving the
function with the state it leaves behind, or undefined behaviour. -/
inductive Res (α : Type) (ε : Type) where
  | ok (a : α)
  | thrown (e : ε)
  | undefined
deriving DecidableEq, Repr

/-- An `operator new` for `int`: on success it yields a non-null address that
holds no live object; `none` is `std::bad_alloc`. -/
structure Allocator where
  alloc : Heap → Option Ptr
  fresh : ∀ σ p, alloc σ = some p → p ≠ NULL ∧ σ.read p = none

/-- An allocator that never throws `std::bad_alloc`. -/
def Allocator.NeverFails (al : Allocator) : Prop := ∀ σ, (al.alloc σ).isSome = true

namespace Heap

/-- The expression `new int(init)`: the allocation function runs first
(throwing `std::bad_alloc` on failure), then the initialiser `init` is
evaluated (`none` when that evaluation is undefined) and stored. -/
def newInt (al : Allocator) (σ : Heap) (init : Option Int) : Res (Ptr × Heap) Heap :=
  match al.alloc σ with
  | none => .thrown σ
  | some p =>
    match init with
    | none => .undefined
    | some v => .ok (p, σ.write p v)

/-- The expression `delete p`: nothing for `NULL`, release of a live object,
undefined for any other pointer (never allocated or already released). -/
def delete (σ : Heap) (p : Ptr) : Option Heap :=
  if p = NULL then some σ
  else
    match σ.read p with
    | none => none
    | some _ => some (σ.free p)

end Heap

/-- The class `IntPtr`: one data member, the owned pointer. -/
structure IntPtr where
  m_Ptr : Ptr
deriving DecidableEq, Repr

namespace IntPtr

/-- Constructor `explicit IntPtr(int* ptr) : m_Ptr(ptr) {}`. -/
def ctor (ptr : Ptr) : IntPtr := ⟨ptr⟩

/-- Member `bool isValid() const { return m_Ptr != NULL ? true : false; }`
(the copy constructor spells it `IsValid`). -/
def isValid (self : IntPtr) : Bool :=
  if self.m_Ptr ≠ NULL then true else false

/-- Copy constructor `IntPtr(const IntPtr& other) :
      m_Ptr(other.IsValid() ? new int(*other.m_Ptr) : NULL) {}`.
A thrown `std::bad_alloc` leaves with the free store as it is then. -/
def copy (al : Allocator) (other : IntPtr) (σ : Heap) : Res (IntPtr × Heap) Heap :=
  if other.isValid then
    match σ.newInt al (σ.read other.m_Ptr) with
    | .ok (p, σ1) => .ok (⟨p⟩, σ1)
    | .thrown σ1 => .thrown σ1
    | .undefined => .undefined
  else .ok (⟨NULL⟩, σ)

/-- Destructor `~IntPtr() { delete m_Ptr; }`. -/
def dtor (self : IntPtr) (σ : Heap) : Option Heap := σ.delete self.m_Ptr

/-- Member `void Swap(IntPtr& other) { std::swap(this->m_Ptr, other.m_Ptr); }`:
the new `*this` and the new `other`. -/
def Swap (self other : IntPtr) : IntPtr × IntPtr :=
  (⟨other.m_Ptr⟩, ⟨self.m_Ptr⟩)

/-- Copy assignment `IntPtr& operator =(const IntPtr& other)`:
`IntPtr temp(other); Swap(temp); return *this;` and then the destructor of
the local `temp`.  The state is `*this` and the free store; `other` is a
reference to const that is read only by the construction of `temp`, before
`*this` is written, so its value at entry is all the function uses of it. -/
def assign (al : Allocator) (self other : IntPtr) (σ : Heap) :
    Res (IntPtr × Heap) (IntPtr × Heap) :=
  match copy al other σ with
  | .thrown σ1 => .thrown (self, σ1)
  | .undefined => .undefined
  | .ok (temp, σ1) =>
    match self.Swap temp with
    | (self1, temp1) =>
      match temp1.dtor σ1 with
      | none => .undefined
      | some σ2 => .ok (self1, σ2)

/-- Member `const int* operator ->() const { return m_Ptr; }`. -/
def arrow (self : IntPtr) : Ptr := self.m_Ptr

/-- Member `const int& operator *() const { return *m_Ptr; }` followed by the read
of the referenced `int`; `none` is the undefined read through a pointer that
is null or not live. -/
def deref (self : IntPtr) (σ : Heap) : Option Int := σ.read self.m_Ptr

/-- Member `int& operator *() { return *m_Ptr; }` followed by an assignment of `z`
to the referenced `int`. -/
def store (self : IntPtr) (z : Int) (σ : Heap) : Option Heap :=
  match σ.read self.m_Ptr with
  | none => none
  | some _ => some (σ.write self.m_Ptr z)

end IntPtr

/-- A program state: the free store and the `IntPtr` objects that exist,
by object identity (variable name). -/
structure Machine where
  heap : Heap
  objs : Nat → Option IntPtr

/-- Replacement of the object named `k`. -/
def Machine.setObj (m : Machine) (k : Nat) (o : Option IntPtr) : Nat → Option IntPtr :=
  fun n => if n = k then o else m.objs n

/-- The statements of the test blocks. -/
inductive Op where
  /-- Statement `IntPtr k(new int(v));` -/
  | construct (k : Nat) (v : Int)
  /-- Statement `IntPtr k(NULL);` -/
  | constructNull (k : Nat)
  /-- Statement `IntPtr k(j);` -/
  | copyConstruct (k j : Nat)
  /-- Statement `i = j;` -/
  | assign (i j : Nat)
  /-- Statement `i.Swap(j);` -/
  | swap (i j : Nat)
  /-- End of the lifetime of `i`: its destructor runs. -/
  | destroy (i : Nat)
  /-- Statement `*i = z;` -/
  | store (i : Nat) (z : Int)
deriving DecidableEq, Repr

namespace Machine

/-- The machine with no object and an empty free store. -/
def init : Machine := ⟨Heap.empty, fun _ => none⟩

/-- Execution of one statement.  A thrown `std::bad_alloc` carries the
machine as the statement leaves it. -/
def step (al : Allocator) (op : Op) (m : Machine) : Res Machine Machine :=
  match op with
  | .construct k v =>
    match m.objs k with
    | some _ => .undefined
    | none =>
      match m.heap.newInt al (some v) with
      | .ok (p, σ1) => .ok ⟨σ1, m.setObj k (some (IntPtr.ctor p))⟩
      | .thrown σ1 => .thrown ⟨σ1, m.objs⟩
      | .undefined => .undefined
  | .constructNull k =>
    match m.objs k with
    | some _ => .undefined
    | none => .ok ⟨m.heap, m.setObj k (some (IntPtr.ctor NULL))⟩
  | .copyConstruct k j =>
    match m.objs k, m.objs j with
    | none, some other =>
      match IntPtr.copy al other m.heap with
      | .ok (c, σ1) => .ok ⟨σ1, m.setObj k (some c)⟩
      | .thrown σ1 => .thrown ⟨σ1, m.objs⟩
      | .undefined => .undefined
    | _, _ => .undefined
  | .assign i j =>
    match m.objs i, m.objs j with
    | some self, some other =>
      match IntPtr.assign al self other m.heap with
      | .ok (self1, σ1) => .ok ⟨σ1, m.setObj i (some self1)⟩
      | .thrown (self1, σ1) => .thrown ⟨σ1, m.setObj i (some self1)⟩
      | .undefined => .undefined
    | _, _ => .undefined
  | .swap i j =>
    match m.objs i, m.objs j with
    | some self, some other =>
      match self.Swap other with
      | (self1, other1) =>
        .ok ⟨m.heap, (Machine.mk m.heap (m.setObj j (some other1))).setObj i (some self1)⟩
    | _, _ => .undefined
  | .destroy i =>
    match m.objs i with
    | none => .undefined
    | some self =>
      match self.dtor m.heap with
      | none => .undefined
      | some σ1 => .ok ⟨σ1, m.setObj i none⟩
  | .store i z =>
    match m.objs i with
    | none => .undefined
    | some self =>
      match self.store z m.heap with
      | none => .undefined
      | some σ1 => .ok ⟨σ1, m.objs⟩

/-- Execution of a sequence of statements, stopping at the first one that
does not complete. -/
def run (al : Allocator) : List Op → Machine → Res Machine Machine
  | [], m => .ok m
  | op :: ops, m =>
    match step al op m with
    | .ok m1 => run al ops m1
    | .thrown m1 => .thrown m1
    | .undefined => .undefined

/-- The value read through `*i`. -/
def valOf (m : Machine) (i : Nat) : Option Int :=
  match m.objs i with
  | none => none
  | some h => h.deref m.heap

/-- Every valid handle points to a live object. -/
def Live (m : Machine) : Prop :=
  ∀ i a, m.objs i = some a → a.isValid = true → (m.heap.read a.m_Ptr).isSome = true

/-- No two handles hold the same non-null pointer. -/
def Exclusive (m : Machine) : Prop :=
  ∀ i j a b, m.objs i = some a → m.objs j = some b →
    a.isValid = true → a.m_Ptr = b.m_Ptr → i = j

end Machine

/-- The allocator that always fails. -/
def Allocator.exhausted : Allocator where
  alloc := fun _ => none
  fresh := by intro σ p h; cases h

/-- The allocator that hands out the address above every live one. -/
def Allocator.bump : Allocator where
  alloc := fun σ => if σ.read (σ.top + 1) = none then some (σ.top + 1) else none
  fresh := by
    intro σ p h
    by_cases hc : σ.read (σ.top + 1) = none
    · simp only [hc, if_true, Option.some.injEq] at h
      subst h
      exact ⟨Nat.succ_ne_zero _, hc⟩
    · simp [hc] at h

/-- The allocator of an arena with room for `n` objects: it behaves as
`Allocator.bump` while fewer than `n` objects are live, and fails otherwise. -/
def Allocator.arena (n : Nat) : Allocator where
  alloc := fun σ => if σ.cells.length < n then Allocator.bump.alloc σ else none
  fresh := by
    intro σ p h
    by_cases hc : σ.cells.length < n
    · simp only [hc, if_true] at h
      exact Allocator.bump.fresh σ p h
    · simp [hc] at h

/-- Every live object is owned by some handle: nothing is leaked. -/
def Machine.NoLeak (m : Machine) : Prop :=
  ∀ q, (m.heap.read q).isSome = true → ∃ i h, m.objs i = some h ∧ h.m_Ptr = q

/-- The expression `*h` as a computation.  The body of `operator *` is
`return *m_Ptr;` with no test of `m_Ptr`, no assertion and no `throw`: the
read through a pointer that is null or not live is undefined behaviour, and
no outcome of the function is an explicit failure (`Res.thrown`). -/
def IntPtr.star (self : IntPtr) (σ : Heap) : Res Int Unit :=
  match self.deref σ with
  | some v => .ok v
  | none => .undefined

/-- The expression `*(h.operator->())`, an access through the pointer that
`operator ->` returns (`return m_Ptr;`, again with no test). -/
def IntPtr.arrowAccess (self : IntPtr) (σ : Heap) : Res Int Unit :=
  match σ.read self.arrow with
  | some v => .ok v
  | none => .undefined

/-! ## The class `T` with two `IntPtr` members
(`src/2_copyConstructor.cpp`, lines 291-314) -/

namespace TwoMember

/-- The class `T`: `IntPtr m_Val1; IntPtr m_Val2;`. -/
structure T where
  m_Val1 : IntPtr
  m_Val2 : IntPtr
deriving DecidableEq, Repr

namespace T

/-- Constructor `T(int* val1, int* val2) : m_Val1(val1), m_Val2(val2) {}`. -/
def ctor (val1 val2 : Ptr) : T := ⟨IntPtr.ctor val1, IntPtr.ctor val2⟩

/-- The implicit copy constructor: the members are copy-constructed in
declaration order; when the copy of `m_Val2` throws, the already constructed
`m_Val1` of the new object is destroyed before the exception leaves. -/
def copy (al : Allocator) (other : T) (σ : Heap) : Res (T × Heap) Heap :=
  match IntPtr.copy al other.m_Val1 σ with
  | .thrown σ1 => .thrown σ1
  | .undefined => .undefined
  | .ok (c1, σ1) =>
    match IntPtr.copy al other.m_Val2 σ1 with
    | .thrown σ2 =>
      match c1.dtor σ2 with
      | none => .undefined
      | some σ3 => .thrown σ3
    | .undefined => .undefined
    | .ok (c2, σ2) => .ok (⟨c1, c2⟩, σ2)

/-- The implicit destructor: the members are destroyed in reverse
declaration order, `m_Val2` first. -/
def dtor (self : T) (σ : Heap) : Option Heap :=
  match self.m_Val2.dtor σ with
  | none => none
  | some σ1 => self.m_Val1.dtor σ1

/-- Member `void Swap(T& other)`:
`m_Val1.Swap(other.m_Val1); m_Val2.Swap(other.m_Val2);`. -/
def Swap (self other : T) : T × T :=
  match self.m_Val1.Swap other.m_Val1, self.m_Val2.Swap other.m_Val2 with
  | (a1, b1), (a2, b2) => (⟨a1, a2⟩, ⟨b1, b2⟩)

/-- Copy assignment `T& operator =(const T& other)`:
`T temp(other); Swap(temp); return *this;` and then the destructor of the
local `temp`. -/
def assign (al : Allocator) (self other : T) (σ : Heap) : Res (T × Heap) (T × Heap) :=
  match copy al other σ with
  | .thrown σ1 => .thrown (self, σ1)
  | .undefined => .undefined
  | .ok (temp, σ1) =>
    match self.Swap temp with
    | (self1, temp1) =>
      match temp1.dtor σ1 with
      | none => .undefined
      | some σ2 => .ok (self1, σ2)

/-- Member `int GetVal1() const { return *m_Val1; }`. -/
def GetVal1 (self : T) (σ : Heap) : Option Int := self.m_Val1.deref σ

/-- Member `int GetVal2() const { return *m_Val2; }`. -/
def GetVal2 (self : T) (σ : Heap) : Option Int := self.m_Val2.deref σ

end T

end TwoMember

/-! ## A virtual call in a constructor
(`src/1_constructors.cpp`, lines 215-246) -/

namespace VirtualInCtor

/-- The classes of the hierarchy; the value is the dynamic type of an object
(during the constructor of `Base` it is `Base`). -/
inductive Class where
  | Base
  | Derived
deriving DecidableEq, Repr

/-- An object of the hierarchy: its current dynamic type and the protected
member `int m_Val`. -/
structure Object where
  vptr : Class
  m_Val : Int
deriving DecidableEq, Repr

/-- Body of `virtual void Base::SetVal() { m_Val = 1; }`. -/
def Base.SetVal (self : Object) : Object := { self with m_Val := 1 }

/-- Body of `virtual void Derived::SetVal() { m_Val = 2; }`. -/
def Derived.SetVal (self : Object) : Object := { self with m_Val := 2 }

/-- A virtual call `SetVal()`: the final overrider of the current dynamic
type runs. -/
def SetVal (self : Object) : Object :=
  match self.vptr with
  | .Base => Base.SetVal self
  | .Derived => Derived.SetVal self

/-- Constructor `Base() : m_Val(0) { }`: the body holds three comment lines
and no statement. -/
def Base.ctor : Object := { vptr := .Base, m_Val := 0 }

/-- Constructor `Derived() : Base() {}`: the base subobject is constructed,
then the object becomes a `Derived`; the body is empty. -/
def Derived.ctor : Object := { Base.ctor with vptr := .Derived }

/-- Member `int GetVal() const { return m_Val; }`. -/
def GetVal (self : Object) : Int := self.m_Val

end VirtualInCtor

/-! ## Static and dynamic resolution of member functions
(`src/8_fields.cpp`, lines 123-143; `src/9_inheritance.cpp`, lines 142-159
and 200-214) -/

/-- The two classes `Base` and `Derived : public Base`. -/
inductive Cls where
  | Base
  | Derived
deriving DecidableEq, Repr

/-- An expression that denotes an object: the static type of the expression
and the dynamic type of the object it denotes. -/
structure Ref where
  static : Cls
  dynamic : Cls
deriving DecidableEq, Repr

/-- The declaration `Derived d;` used as the expression `d`. -/
def Ref.d : Ref := ⟨.Derived, .Derived⟩

/-- The conversions `Base* b = &d;` and `static_cast<Base&>(d)`: the same
object seen with static type `Base`. -/
def Ref.toBase (r : Ref) : Ref := ⟨.Base, r.dynamic⟩

namespace Fields

/-- Body of `int Base::f() { return 10; }`. -/
def Base.f : Int := 10

/-- Body of `virtual int Base::v() { return 10; }`. -/
def Base.v : Int := 10

/-- Body of `int Derived::f() { return 20; }`. -/
def Derived.f : Int := 20

/-- Body of `virtual int Derived::v() { return 20; }`. -/
def Derived.v : Int := 20

/-- The call `r.f()` of the non-virtual `f`: name lookup in the static type. -/
def f (r : Ref) : Int :=
  match r.static with
  | .Base => Base.f
  | .Derived => Derived.f

/-- The call `r.v()` of the virtual `v`: the final overrider of the dynamic
type. -/
def v (r : Ref) : Int :=
  match r.dynamic with
  | .Base => Base.v
  | .Derived => Derived.v

end Fields

namespace Hiding

/-- Body of `int Base::f() { return 10; }`. -/
def Base.f : Int := 10

/-- Body of `int Derived::f() { return 20; }`, which hides `Base::f`. -/
def Derived.f : Int := 20

/-- The call `r.f()`: name lookup in the static type. -/
def f (r : Ref) : Int :=
  match r.static with
  | .Base => Base.f
  | .Derived => Derived.f

/-- The qualified call `r.Base::f()`. -/
def qualifiedBaseF (_r : Ref) : Int := Base.f

end Hiding

namespace Overriding

/-- Body of `virtual int Base::f() { return 10; }` (the source spells the
keyword `reutnr`). -/
def Base.f : Int := 10

/-- Body of `virtual int Derived::f() { return 20; }`. -/
def Derived.f : Int := 20

/-- The call `r.f()` of the virtual `f`: the final overrider of the dynamic
type. -/
def f (r : Ref) : Int :=
  match r.dynamic with
  | .Base => Base.f
  | .Derived => Derived.f

/-- The qualified call `r.Base::f()`, which suppresses the virtual call. -/
def qualifiedBaseF (_r : Ref) : Int := Base.f

end Overriding

/-! ## The virtual `Clone` (`src/9_inheritance.cpp`, lines 647-685) -/

namespace Shapes

/-- The concrete classes derived from `Shape`; the value is what `typeid`
reports for an object. -/
inductive ShapeType where
  | Rectangle
  | Ellipse
deriving DecidableEq, Repr

/-- The live `Shape` objects on the free store with their dynamic types
(the classes have no data member). -/
structure ShapeStore where
  objs : List (Ptr × ShapeType)
deriving DecidableEq, Repr

/-- Dynamic type of the object at `p`, as reported by `typeid(*p)`; `none`
when `p` is null or no live object is there. -/
def ShapeStore.typeid (st : ShapeStore) (p : Ptr) : Option ShapeType :=
  if p = NULL then none else (st.objs.find? (fun o => o.1 == p)).map Prod.snd

/-- Construction of an object of type `k` at the address `p`. -/
def ShapeStore.place (st : ShapeStore) (p : Ptr) (k : ShapeType) : ShapeStore :=
  ⟨(p, k) :: st.objs⟩

/-- Member `virtual Rectangle* Rectangle::Clone() const
{ return new Rectangle(*this); }`.  The argument `fresh` is the outcome of
`operator new` (`none` is `std::bad_alloc`); the copy constructors of
`Rectangle` and `Shape` have empty bodies. -/
def Rectangle.Clone (fresh : Option Ptr) (_this : Ptr) (st : ShapeStore) :
    Res (Ptr × ShapeStore) ShapeStore :=
  match fresh with
  | none => .thrown st
  | some p => .ok (p, st.place p .Rectangle)

/-- Member `virtual Ellipse* Ellipse::Clone() const
{ return new Ellipse(*this); }`. -/
def Ellipse.Clone (fresh : Option Ptr) (_this : Ptr) (st : ShapeStore) :
    Res (Ptr × ShapeStore) ShapeStore :=
  match fresh with
  | none => .thrown st
  | some p => .ok (p, st.place p .Ellipse)

/-- The virtual call `s->Clone()` through a `Shape*`: the final overrider of
the dynamic type of `*s` runs; a call through a pointer to no live object is
undefined. -/
def Shape.Clone (fresh : Option Ptr) (s : Ptr) (st : ShapeStore) :
    Res (Ptr × ShapeStore) ShapeStore :=
  match st.typeid s with
  | none => .undefined
  | some .Rectangle => Rectangle.Clone fresh s st
  | some .Ellipse => Ellipse.Clone fresh s st

end Shapes

/-! ## Arithmetic of `int` -/

/-- Largest value of a 32-bit `int`. -/
def INT_MAX : Int := 2147483647

/-- Smallest value of a 32-bit `int`. -/
def INT_MIN : Int := -2147483648

/-- Addition of two `int`s; `none` is signed overflow, which is undefined. -/
def addInt (x y : Int) : Option Int :=
  if INT_MIN ≤ x + y ∧ x + y ≤ INT_MAX then some (x + y) else none

/-- Multiplication of two `int`s; `none` is signed overflow, which is
undefined. -/
def mulInt (x y : Int) : Option Int :=
  if INT_MIN ≤ x * y ∧ x * y ≤ INT_MAX then some (x * y) else none

/-! ## Members named like the constructor parameters
(`src/6_field_initialization.cpp`, lines 83-98) -/

namespace FieldInit

/-- The class `T`: `int a; int b; int c;`. -/
structure T where
  a : Int
  b : Int
  c : Int
deriving DecidableEq, Repr

/-- Constructor `T(int a, int b, int c) : a(a), b(b), c(c)
{ this->a += 1; a += 2; }`: in the body the name `a` is the parameter and
`this->a` the member.  `none` is the signed overflow of one of the two
compound assignments. -/
def T.ctor (a b c : Int) : Option T :=
  let self : T := { a := a, b := b, c := c }
  match addInt self.a 1 with
  | none => none
  | some a1 =>
    let self1 : T := { self with a := a1 }
    match addInt a 2 with
    | none => none
    | some _ => some self1

end FieldInit

/-! ## The class `Date` (`src/8_fields.cpp`, lines 26-52) -/

/-- The class `Date`: `int m_Year; int m_Month; int m_Day;`. -/
structure Date where
  m_Year : Int
  m_Month : Int
  m_Day : Int
deriving DecidableEq, Repr

namespace Date

/-- Constructor `Date(int year, int month, int day)`. -/
def ctor (year month day : Int) : Date := ⟨year, month, day⟩

/-- Member `int GetYear() const { return m_Year; }`. -/
def GetYear (self : Date) : Int := self.m_Year

/-- Member `int GetMonth() const { return m_Month; }`. -/
def GetMonth (self : Date) : Int := self.m_Month

/-- Member `int GetDay() const { return m_Day; }`. -/
def GetDay (self : Date) : Int := self.m_Day

/-- Member `void SetYear(int val) { m_Year = val; }`. -/
def SetYear (self : Date) (val : Int) : Date := { self with m_Year := val }

/-- Member `void SetMonth(int val) { m_Month = val; }`. -/
def SetMonth (self : Date) (val : Int) : Date := { self with m_Month := val }

/-- Member `void SetDay(int val) { m_Day = val; }`. -/
def SetDay (self : Date) (val : Int) : Date := { self with m_Day := val }

/-- Member `int CalcTotalMonth() const { return m_Year * 12 + m_Month; }`:
the returned value and the object after the call; `none` is signed overflow
of the product or of the sum. -/
def CalcTotalMonth (self : Date) : Option (Int × Date) :=
  match mulInt self.m_Year 12 with
  | none => none
  | some months =>
    match addInt months self.m_Month with
    | none => none
    | some total => some (total, self)

/-- A call of one of the three setters. -/
inductive Call where
  | SetYear (val : Int)
  | SetMonth (val : Int)
  | SetDay (val : Int)
deriving DecidableEq, Repr

/-- Execution of a setter call. -/
def apply (self : Date) : Call → Date
  | .SetYear val => self.SetYear val
  | .SetMonth val => self.SetMonth val
  | .SetDay val => self.SetDay val

/-- Execution of a sequence of setter calls, first to last. -/
def applyAll (self : Date) (calls : List Call) : Date := calls.foldl apply self

end Date

/-! ## Multiple inheritance (`src/9_inheritance.cpp`, lines 261-305) -/

namespace MultipleInheritance

/-- The class `Singer`: `int m_Age;`. -/
structure Singer where
  m_Age : Int
deriving DecidableEq, Repr

/-- The class `Dancer`: `int m_Age;`. -/
structure Dancer where
  m_Age : Int
deriving DecidableEq, Repr

/-- The class `Idol : public Singer, public Dancer`: one base subobject of
each. -/
structure Idol where
  toSinger : Singer
  toDancer : Dancer
deriving DecidableEq, Repr

/-- The assignment `obj.Singer::m_Age = x;`. -/
def Idol.setSingerAge (obj : Idol) (x : Int) : Idol :=
  { obj with toSinger := { obj.toSinger with m_Age := x } }

/-- The assignment `obj.Dancer::m_Age = y;`. -/
def Idol.setDancerAge (obj : Idol) (y : Int) : Idol :=
  { obj with toDancer := { obj.toDancer with m_Age := y } }

/-- The expression `obj.Singer::m_Age`. -/
def Idol.singerAge (obj : Idol) : Int := obj.toSinger.m_Age

/-- The expression `obj.Dancer::m_Age`. -/
def Idol.dancerAge (obj : Idol) : Int := obj.toDancer.m_Age

end MultipleInheritance

namespace Diamond

/-- The class `Person`: `int m_Age;`. -/
structure Person where
  m_Age : Int
deriving DecidableEq, Repr

/-- The class `Singer : public Person`. -/
structure Singer where
  toPerson : Person
deriving DecidableEq, Repr

/-- The class `Dancer : public Person`. -/
structure Dancer where
  toPerson : Person
deriving DecidableEq, Repr

/-- The class `Idol : public Singer, public Dancer` without virtual
inheritance: each base carries its own `Person` subobject. -/
structure Idol where
  toSinger : Singer
  toDancer : Dancer
deriving DecidableEq, Repr

/-- The assignment `obj.Singer::m_Age = x;`. -/
def Idol.setSingerAge (obj : Idol) (x : Int) : Idol :=
  { obj with toSinger := { toPerson := { obj.toSinger.toPerson with m_Age := x } } }

/-- The assignment `obj.Dancer::m_Age = y;`. -/
def Idol.setDancerAge (obj : Idol) (y : Int) : Idol :=
  { obj with toDancer := { toPerson := { obj.toDancer.toPerson with m_Age := y } } }

/-- The expression `obj.Singer::m_Age`. -/
def Idol.singerAge (obj : Idol) : Int := obj.toSinger.toPerson.m_Age

/-- The expression `obj.Dancer::m_Age`. -/
def Idol.dancerAge (obj : Idol) : Int := obj.toDancer.toPerson.m_Age

end Diamond

/-! ## The class `T` with two `int` members
(`src/2_copyConstructor.cpp`, lines 22-101) -/

namespace IntPair

/-- The class `T`: `int m_X; int m_Y;`. -/
structure T where
  m_X : Int
  m_Y : Int
deriving DecidableEq, Repr

namespace T

/-- Constructor `T(int x, int y) : m_X(x), m_Y(y) {}`. -/
def ctor (x y : Int) : T := ⟨x, y⟩

/-- The implicit copy constructor
`T(const T& other) : m_X(other.m_X), m_Y(other.m_Y) {}`. -/
def copy (other : T) : T := ⟨other.m_X, other.m_Y⟩

/-- The implicit copy assignment of the first version of the class (lines
35-38 and 55-58): `m_X = other.m_X; m_Y = other.m_Y;`.  The result is
`*this` after the call; `other` is a reference to const. -/
def assignMemberwise (self other : T) : T :=
  let self1 : T := { self with m_X := other.m_X }
  let self2 : T := { self1 with m_Y := other.m_Y }
  self2

/-- Member `void Swap(T& other)`:
`std::swap(this->m_X, other.m_X); std::swap(this->m_Y, other.m_Y);`:
the new `*this` and the new `other`. -/
def Swap (self other : T) : T × T :=
  let self1 : T := { self with m_X := other.m_X }
  let other1 : T := { other with m_X := self.m_X }
  let self2 : T := { self1 with m_Y := other1.m_Y }
  let other2 : T := { other1 with m_Y := self1.m_Y }
  (self2, other2)

/-- Copy assignment of the second version of the class (lines 75-84):
`T temp(other); Swap(temp); return *this;`.  The result is `*this` after
the call; `other` is a reference to const and only `temp` is swapped. -/
def assignSwap (self other : T) : T :=
  let temp : T := copy other
  match self.Swap temp with
  | (self1, _temp1) => self1

/-- Member `int GetX() const { return m_X; }`. -/
def GetX (self : T) : Int := self.m_X

/-- Member `int GetY() const { return m_Y; }`. -/
def GetY (self : T) : Int := self.m_Y

end T

end IntPair

/-! ## The class `T` that owns a `Big`
(`src/2_copyConstructor.cpp`, lines 131-196) -/

namespace BigOwner

/-- The class `Big`: `int m_Val;`.  On the free store a `Big` is the cell
that holds its `m_Val`. -/
structure Big where
  m_Val : Int
deriving DecidableEq, Repr

namespace Big

/-- Constructor `explicit Big(int val) : m_Val(val) {}`. -/
def ctor (val : Int) : Big := ⟨val⟩

/-- Copy constructor `Big(const Big& other) : m_Val(other.m_Val)`, whose
body writes one line to `std::cout`: the new object and the output. -/
def copy (other : Big) (out : List String) : Big × List String :=
  (⟨other.m_Val⟩, out ++ ["Big::Big(const Big& other)"])

/-- Copy assignment `Big& operator =(const Big& other)`:
`m_Val = other.m_Val;`, then one line to `std::cout`. -/
def assign (self other : Big) (out : List String) : Big × List String :=
  ({ self with m_Val := other.m_Val }, out ++ ["Big::operator =(const Big& other)"])

/-- Member `int GetVal() const { return m_Val; }`. -/
def GetVal (self : Big) : Int := self.m_Val

/-- Member `void SetVal(int val) { m_Val = val; }`. -/
def SetVal (self : Big) (val : Int) : Big := { self with m_Val := val }

end Big

/-- The class `T`: `Big* m_Big;`. -/
structure T where
  m_Big : Ptr
deriving DecidableEq, Repr

namespace T

/-- Constructor `explicit T(Big* big) : m_Big(big) {}`. -/
def ctor (big : Ptr) : T := ⟨big⟩

/-- Copy constructor `T(const T& other) :
m_Big(other.m_Big != NULL ? new Big(*other.m_Big) : NULL) {}`.  The
allocation runs first, then the copy constructor of `Big` on `*other.m_Big`.
The state is the free store and the output. -/
def copy (al : Allocator) (other : T) (σ : Heap) (out : List String) :
    Res (T × Heap × List String) (Heap × List String) :=
  if other.m_Big ≠ NULL then
    match al.alloc σ with
    | none => .thrown (σ, out)
    | some p =>
      match σ.read other.m_Big with
      | none => .undefined
      | some val =>
        match Big.copy ⟨val⟩ out with
        | (b, out1) => .ok (⟨p⟩, σ.write p b.m_Val, out1)
  else .ok (⟨NULL⟩, σ, out)

/-- Destructor `~T() { delete m_Big; }` (`Big` has no destructor of its
own and nothing is written). -/
def dtor (self : T) (σ : Heap) : Option Heap := σ.delete self.m_Big

/-- Member `void Swap(T& other) { std::swap(this->m_Big, other.m_Big); }`:
the new `*this` and the new `other`. -/
def Swap (self other : T) : T × T := (⟨other.m_Big⟩, ⟨self.m_Big⟩)

/-- Copy assignment `T& operator =(const T& other)`:
`T temp(other); Swap(temp); return *this;` and then the destructor of the
local `temp`. -/
def assign (al : Allocator) (self other : T) (σ : Heap) (out : List String) :
    Res (T × Heap × List String) (T × Heap × List String) :=
  match copy al other σ out with
  | .thrown (σ1, out1) => .thrown (self, σ1, out1)
  | .undefined => .undefined
  | .ok (temp, σ1, out1) =>
    match self.Swap temp with
    | (self1, temp1) =>
      match temp1.dtor σ1 with
      | none => .undefined
      | some σ2 => .ok (self1, σ2, out1)

/-- Member `const Big* GetBig() const { return m_Big; }`. -/
def GetBig (self : T) : Ptr := self.m_Big

/-- The expression `t.GetBig()->GetVal()`; `none` is the undefined call
through a pointer that is null or not live. -/
def GetBigVal (self : T) (σ : Heap) : Option Int :=
  (σ.read self.GetBig).map (fun val => (Big.ctor val).GetVal)

end T

end BigOwner

/-! ## The free store -/

theorem findCell_dropCell_same (cs : List (Ptr × Int)) (p : Ptr) :
    findCell (dropCell cs p) p = none := by
  induction cs with
  | nil => rfl
  | cons c rest ih =>
    obtain ⟨q, v⟩ := c
    by_cases hq : q = p
    · simp [dropCell, hq, ih]
    · simp [dropCell, findCell, hq, ih]

theorem findCell_dropCell_other (cs : List (Ptr × Int)) (p q : Ptr) (h : q ≠ p) :
    findCell (dropCell cs p) q = findCell cs q := by
  induction cs with
  | nil => rfl
  | cons c rest ih =>
    obtain ⟨r, v⟩ := c
    by_cases hr : r = p
    · have hpq : p ≠ q := fun e => h e.symm
      subst hr
      simp [dropCell, findCell, hpq, ih]
    · by_cases hrq : r = q
      · subst hrq
        simp [dropCell, findCell, hr]
      · simp [dropCell, findCell, hr, hrq, ih]

theorem findCell_above_top (cs : List (Ptr × Int)) (p : Ptr)
    (h : (cs.map Prod.fst).foldr max 0 < p) : findCell cs p = none := by
  induction cs with
  | nil => rfl
  | cons c rest ih =>
    obtain ⟨q, v⟩ := c
    simp only [List.map_cons, List.foldr_cons] at h
    have h1 : q < p := lt_of_le_of_lt (le_max_left _ _) h
    have h2 : (rest.map Prod.fst).foldr max 0 < p := lt_of_le_of_lt (le_max_right _ _) h
    simp [findCell, Nat.ne_of_lt h1, ih h2]

namespace Heap

theorem read_null (σ : Heap) : σ.read NULL = none := by
  simp [read]

theorem read_write_same (σ : Heap) (p : Ptr) (v : Int) (hp : p ≠ NULL) :
    (σ.write p v).read p = some v := by
  simp [read, write, findCell, hp]

theorem read_write_other (σ : Heap) (p q : Ptr) (v : Int) (h : q ≠ p) :
    (σ.write p v).read q = σ.read q := by
  have hpq : p ≠ q := fun e => h e.symm
  simp [read, write, findCell, hpq, findCell_dropCell_other _ _ _ h]

theorem read_free_same (σ : Heap) (p : Ptr) : (σ.free p).read p = none := by
  simp [read, free, findCell_dropCell_same]

theorem read_free_other (σ : Heap) (p q : Ptr) (h : q ≠ p) :
    (σ.free p).read q = σ.read q := by
  simp [read, free, findCell_dropCell_other _ _ _ h]

theorem read_above_top (σ : Heap) (p : Ptr) (h : σ.top < p) : σ.read p = none := by
  simp [read, findCell_above_top σ.cells p h]

end Heap

theorem Allocator.bump_alloc (σ : Heap) : Allocator.bump.alloc σ = some (σ.top + 1) := by
  simp [Allocator.bump, Heap.read_above_top σ _ (Nat.lt_succ_self _)]

theorem Allocator.bump_neverFails : Allocator.bump.NeverFails := by
  intro σ; simp [Allocator.bump_alloc]

/-! ## Member functions of `IntPtr` -/

namespace IntPtr

theorem isValid_iff (h : IntPtr) : h.isValid = true ↔ h.m_Ptr ≠ NULL := by
  simp [isValid]

theorem isValid_false_iff (h : IntPtr) : h.isValid = false ↔ h.m_Ptr = NULL := by
  simp [isValid]

theorem isValid_of_deref (h : IntPtr) (σ : Heap) (v : Int) (hv : h.deref σ = some v) :
    h.isValid = true := by
  rw [isValid_iff]
  intro e
  rw [deref, e, Heap.read_null] at hv
  cases hv

theorem copy_of_valid (al : Allocator) (h : IntPtr) (σ : Heap) (v : Int) (p : Ptr)
    (hv : h.isValid = true) (hr : σ.read h.m_Ptr = some v) (hp : al.alloc σ = some p) :
    copy al h σ = .ok (⟨p⟩, σ.write p v) := by
  simp [copy, hv, Heap.newInt, hr, hp]

theorem copy_of_empty (al : Allocator) (h : IntPtr) (σ : Heap) (hv : h.isValid = false) :
    copy al h σ = .ok (⟨NULL⟩, σ) := by
  simp [copy, hv]

theorem copy_of_bad_alloc (al : Allocator) (h : IntPtr) (σ : Heap)
    (hv : h.isValid = true) (hp : al.alloc σ = none) :
    copy al h σ = .thrown σ := by
  simp [copy, hv, Heap.newInt, hp]

/-- Effect of a completed copy construction on the free store. -/
theorem copy_spec (al : Allocator) (h : IntPtr) (σ : Heap)
    (hlive : h.isValid = true → (σ.read h.m_Ptr).isSome = true)
    (hal : h.isValid = true → (al.alloc σ).isSome = true) :
    ∃ c σ1, copy al h σ = .ok (c, σ1) ∧
      c.isValid = h.isValid ∧
      (c.isValid = true → σ.read c.m_Ptr = none) ∧
      c.deref σ1 = h.deref σ ∧
      (∀ q, q ≠ c.m_Ptr → σ1.read q = σ.read q) := by
  by_cases hv : h.isValid = true
  · obtain ⟨v, hr⟩ := Option.isSome_iff_exists.mp (hlive hv)
    obtain ⟨p, hp⟩ := Option.isSome_iff_exists.mp (hal hv)
    obtain ⟨hnn, hfr⟩ := al.fresh σ p hp
    refine ⟨⟨p⟩, σ.write p v, copy_of_valid al h σ v p hv hr hp, ?_, ?_, ?_, ?_⟩
    · rw [hv]; exact (isValid_iff _).mpr hnn
    · intro _; exact hfr
    · simp [deref, Heap.read_write_same σ p v hnn, hr]
    · intro q hq; exact Heap.read_write_other σ p q v hq
  · have hf : h.isValid = false := by simpa using hv
    refine ⟨⟨NULL⟩, σ, copy_of_empty al h σ hf, ?_, ?_, ?_, ?_⟩
    · rw [hf]; exact (isValid_false_iff _).mpr rfl
    · intro ht
      have : (⟨NULL⟩ : IntPtr).isValid = false := (isValid_false_iff _).mpr rfl
      rw [this] at ht; cases ht
    · simp [deref, Heap.read_null, (isValid_false_iff h).mp hf]
    · intro q _; rfl

/-- Effect of the destructor on a handle that is empty or owns a live object. -/
theorem dtor_spec (h : IntPtr) (σ : Heap)
    (hlive : h.isValid = true → (σ.read h.m_Ptr).isSome = true) :
    ∃ σ1, h.dtor σ = some σ1 ∧
      (h.isValid = true → σ1.read h.m_Ptr = none) ∧
      (h.isValid = false → σ1 = σ) ∧
      (∀ q, q ≠ h.m_Ptr → σ1.read q = σ.read q) := by
  by_cases hv : h.isValid = true
  · obtain ⟨v, hr⟩ := Option.isSome_iff_exists.mp (hlive hv)
    have hnn : h.m_Ptr ≠ NULL := (isValid_iff h).mp hv
    refine ⟨σ.free h.m_Ptr, ?_, ?_, ?_, ?_⟩
    · simp [dtor, Heap.delete, hnn, hr]
    · intro _; exact Heap.read_free_same σ _
    · intro hf; rw [hf] at hv; cases hv
    · intro q hq; exact Heap.read_free_other σ _ q hq
  · have hf : h.isValid = false := by simpa using hv
    have hn : h.m_Ptr = NULL := (isValid_false_iff h).mp hf
    refine ⟨σ, ?_, ?_, ?_, ?_⟩
    · simp [dtor, Heap.delete, hn]
    · intro ht; exact absurd ht hv
    · intro _; rfl
    · intro q _; rfl

/-- Effect of a completed copy assignment on `*this` and on the free store. -/
theorem assign_spec (al : Allocator) (self other : IntPtr) (σ : Heap)
    (hself : self.isValid = true → (σ.read self.m_Ptr).isSome = true)
    (hother : other.isValid = true → (σ.read other.m_Ptr).isSome = true)
    (hal : other.isValid = true → (al.alloc σ).isSome = true) :
    ∃ a1 σ1, assign al self other σ = .ok (a1, σ1) ∧
      a1.isValid = other.isValid ∧
      (a1.isValid = true → σ.read a1.m_Ptr = none) ∧
      a1.deref σ1 = other.deref σ ∧
      (self.isValid = true → σ1.read self.m_Ptr = none) ∧
      (∀ q, q ≠ self.m_Ptr → q ≠ a1.m_Ptr → σ1.read q = σ.read q) := by
  obtain ⟨c, σ1, hc, hcv, hcf, hcd, hcframe⟩ := copy_spec al other σ hother hal
  have hne : self.isValid = true → self.m_Ptr ≠ c.m_Ptr := by
    intro hs e
    have hl := hself hs
    have hcvalid : c.isValid = true := by
      rw [isValid_iff] at hs ⊢; rw [← e]; exact hs
    rw [e, hcf hcvalid] at hl
    cases hl
  have hself1 : self.isValid = true → (σ1.read self.m_Ptr).isSome = true := by
    intro hs
    rw [hcframe _ (hne hs)]; exact hself hs
  obtain ⟨σ2, hd, hd1, hd2, hdframe⟩ := dtor_spec self σ1 hself1
  have hrc : σ2.read c.m_Ptr = σ1.read c.m_Ptr := by
    by_cases hs : self.isValid = true
    · exact hdframe _ (fun e => hne hs e.symm)
    · have hf : self.isValid = false := by simpa using hs
      rw [hd2 hf]
  refine ⟨c, σ2, ?_, hcv, hcf, ?_, hd1, ?_⟩
  · have hsw : self.Swap c = (c, self) := rfl
    simp [assign, hc, hsw, hd]
  · show σ2.read c.m_Ptr = other.deref σ
    rw [hrc]; exact hcd
  · intro q hq1 hq2
    rw [hdframe q hq1, hcframe q hq2]

/-- A copy assignment whose clone cannot be allocated throws and leaves
`*this` and the free store as they were. -/
theorem assign_of_bad_alloc (al : Allocator) (self other : IntPtr) (σ : Heap)
    (hv : other.isValid = true) (hp : al.alloc σ = none) :
    assign al self other σ = .thrown (self, σ) := by
  simp [assign, copy_of_bad_alloc al other σ hv hp]

end IntPtr

/-- C10: for every `int` v, when the allocation succeeds, `new int(v)` yields
a pointer `p` such that the handle `IntPtr(p)` is valid and `*IntPtr(p)` is
`v`. -/
theorem IntPtr.construct_deref (al : Allocator) (σ : Heap) (v : Int)
    (hal : (al.alloc σ).isSome = true) :
    ∃ p σ1, σ.newInt al (some v) = .ok (p, σ1) ∧
      (IntPtr.ctor p).isValid = true ∧ (IntPtr.ctor p).deref σ1 = some v := by
  obtain ⟨p, hp⟩ := Option.isSome_iff_exists.mp hal
  have hnn : p ≠ NULL := (al.fresh σ p hp).1
  refine ⟨p, σ.write p v, ?_, ?_, ?_⟩
  · simp [Heap.newInt, hp]
  · simpa [IntPtr.isValid_iff, IntPtr.ctor] using hnn
  · simpa [IntPtr.deref, IntPtr.ctor] using Heap.read_write_same σ p v hnn

/-- Witness of C10: `IntPtr(new int(10))` on the empty free store with the
bump allocator. -/
theorem IntPtr.construct_deref_witness :
    (Allocator.bump.alloc Heap.empty).isSome = true ∧
    ∃ p σ1, Heap.empty.newInt Allocator.bump (some 10) = .ok (p, σ1) ∧
      (IntPtr.ctor p).isValid = true ∧ (IntPtr.ctor p).deref σ1 = some 10 :=
  ⟨by simp [Allocator.bump_alloc],
   IntPtr.construct_deref Allocator.bump Heap.empty 10 (by simp [Allocator.bump_alloc])⟩

/-- C4: for every handle `h` that is empty or owns a live object, when the
allocation (if any) succeeds, the copy constructor completes with a handle
that is valid exactly when `h` is; when `h` is valid the copy is readable and
its pointee equals `*h`, which is unchanged; when `h` is empty the copy is
empty and the free store is untouched. -/
theorem IntPtr.copy_valid_iff (al : Allocator) (h : IntPtr) (σ : Heap)
    (hlive : h.isValid = true → (σ.read h.m_Ptr).isSome = true)
    (hal : h.isValid = true → (al.alloc σ).isSome = true) :
    ∃ c σ1, IntPtr.copy al h σ = .ok (c, σ1) ∧
      (c.isValid = true ↔ h.isValid = true) ∧
      (h.isValid = true →
        (c.deref σ1).isSome = true ∧ c.deref σ1 = h.deref σ1 ∧ h.deref σ1 = h.deref σ) ∧
      (h.isValid = false → c.m_Ptr = NULL ∧ σ1 = σ) := by
  by_cases hv : h.isValid = true
  · obtain ⟨v, hr⟩ := Option.isSome_iff_exists.mp (hlive hv)
    obtain ⟨p, hp⟩ := Option.isSome_iff_exists.mp (hal hv)
    obtain ⟨hnn, hfr⟩ := al.fresh σ p hp
    have hne : h.m_Ptr ≠ p := by
      intro e; rw [e, hfr] at hr; cases hr
    have h1 : (σ.write p v).read p = some v := Heap.read_write_same σ p v hnn
    have h2 : (σ.write p v).read h.m_Ptr = some v := by
      rw [Heap.read_write_other σ p h.m_Ptr v hne]; exact hr
    refine ⟨⟨p⟩, σ.write p v, IntPtr.copy_of_valid al h σ v p hv hr hp, ?_, ?_, ?_⟩
    · simp [IntPtr.isValid_iff, hnn, (IntPtr.isValid_iff h).mp hv]
    · intro _
      simp [IntPtr.deref, h1, h2, hr]
    · intro hf; rw [hf] at hv; cases hv
  · have hf : h.isValid = false := by simpa using hv
    refine ⟨⟨NULL⟩, σ, IntPtr.copy_of_empty al h σ hf, ?_, ?_, ?_⟩
    · simp [IntPtr.isValid_iff, hf]
    · intro ht; exact absurd ht hv
    · intro _; exact ⟨rfl, rfl⟩

/-- Witness of C4: copy of a handle owning the value 10 at address 1. -/
theorem IntPtr.copy_valid_iff_witness :
    ((IntPtr.ctor 1).isValid = true →
      ((Heap.empty.write 1 10).read (IntPtr.ctor 1).m_Ptr).isSome = true) ∧
    ((IntPtr.ctor 1).isValid = true →
      (Allocator.bump.alloc (Heap.empty.write 1 10)).isSome = true) ∧
    ∃ c σ1, IntPtr.copy Allocator.bump (IntPtr.ctor 1) (Heap.empty.write 1 10) = .ok (c, σ1) ∧
      (c.isValid = true ↔ (IntPtr.ctor 1).isValid = true) ∧
      ((IntPtr.ctor 1).isValid = true →
        (c.deref σ1).isSome = true ∧ c.deref σ1 = (IntPtr.ctor 1).deref σ1 ∧
          (IntPtr.ctor 1).deref σ1 = (IntPtr.ctor 1).deref (Heap.empty.write 1 10)) ∧
      ((IntPtr.ctor 1).isValid = false → c.m_Ptr = NULL ∧ σ1 = Heap.empty.write 1 10) :=
  ⟨fun _ => by decide, fun _ => by simp [Allocator.bump_alloc],
   IntPtr.copy_valid_iff Allocator.bump (IntPtr.ctor 1) (Heap.empty.write 1 10)
     (fun _ => by decide) (fun _ => by simp [Allocator.bump_alloc])⟩

/-- Counterexample to C5 as stated: the copy of the empty handle stores the
same pointer as the empty handle, namely `NULL`. -/
theorem IntPtr.copy_ptr_same_on_empty :
    ∃ c σ1, IntPtr.copy Allocator.bump (IntPtr.ctor NULL) Heap.empty = .ok (c, σ1) ∧
      ¬ (c.m_Ptr ≠ (IntPtr.ctor NULL).m_Ptr) :=
  ⟨⟨NULL⟩, Heap.empty, by decide, by decide⟩

/-- C5, amended: for every handle `h` that is empty or owns a live object,
when the allocation (if any) succeeds, the pointer stored in the copy differs
from the pointer stored in `h` and is not null if `h` is valid, and is the
same null pointer if `h` is empty. -/
theorem IntPtr.copy_ptr_ne_of_valid (al : Allocator) (h : IntPtr) (σ : Heap)
    (hlive : h.isValid = true → (σ.read h.m_Ptr).isSome = true)
    (hal : h.isValid = true → (al.alloc σ).isSome = true) :
    ∃ c σ1, IntPtr.copy al h σ = .ok (c, σ1) ∧
      (h.isValid = true → c.m_Ptr ≠ h.m_Ptr ∧ c.m_Ptr ≠ NULL) ∧
      (h.isValid = false → c.m_Ptr = h.m_Ptr ∧ c.m_Ptr = NULL) := by
  by_cases hv : h.isValid = true
  · obtain ⟨v, hr⟩ := Option.isSome_iff_exists.mp (hlive hv)
    obtain ⟨p, hp⟩ := Option.isSome_iff_exists.mp (hal hv)
    obtain ⟨hnn, hfr⟩ := al.fresh σ p hp
    refine ⟨⟨p⟩, σ.write p v, IntPtr.copy_of_valid al h σ v p hv hr hp, ?_, ?_⟩
    · intro _
      refine ⟨?_, hnn⟩
      intro e
      change p = h.m_Ptr at e
      rw [← e, hfr] at hr; cases hr
    · intro hf; rw [hf] at hv; cases hv
  · have hf : h.isValid = false := by simpa using hv
    refine ⟨⟨NULL⟩, σ, IntPtr.copy_of_empty al h σ hf, ?_, ?_⟩
    · intro ht; exact absurd ht hv
    · intro _; exact ⟨((IntPtr.isValid_false_iff h).mp hf).symm, rfl⟩

/-- Witness of amended C5: copy of a handle owning the value 10 at address 1. -/
theorem IntPtr.copy_ptr_ne_of_valid_witness :
    ((IntPtr.ctor 1).isValid = true →
      ((Heap.empty.write 1 10).read (IntPtr.ctor 1).m_Ptr).isSome = true) ∧
    ((IntPtr.ctor 1).isValid = true →
      (Allocator.bump.alloc (Heap.empty.write 1 10)).isSome = true) ∧
    ∃ c σ1, IntPtr.copy Allocator.bump (IntPtr.ctor 1) (Heap.empty.write 1 10) = .ok (c, σ1) ∧
      ((IntPtr.ctor 1).isValid = true → c.m_Ptr ≠ (IntPtr.ctor 1).m_Ptr ∧ c.m_Ptr ≠ NULL) ∧
      ((IntPtr.ctor 1).isValid = false → c.m_Ptr = (IntPtr.ctor 1).m_Ptr ∧ c.m_Ptr = NULL) :=
  ⟨fun _ => by decide, fun _ => by simp [Allocator.bump_alloc],
   IntPtr.copy_ptr_ne_of_valid Allocator.bump (IntPtr.ctor 1) (Heap.empty.write 1 10)
     (fun _ => by decide) (fun _ => by simp [Allocator.bump_alloc])⟩

/-! ## Statements on named handles -/

namespace Machine

theorem step_construct (al : Allocator) (m : Machine) (k : Nat) (v : Int) (p : Ptr)
    (hk : m.objs k = none) (hp : al.alloc m.heap = some p) :
    m.step al (.construct k v) = .ok ⟨m.heap.write p v, m.setObj k (some ⟨p⟩)⟩ := by
  simp [step, hk, Heap.newInt, hp, IntPtr.ctor]

theorem step_assign (al : Allocator) (m : Machine) (i j : Nat) (a b a1 : IntPtr) (σ1 : Heap)
    (hi : m.objs i = some a) (hj : m.objs j = some b)
    (hok : IntPtr.assign al a b m.heap = .ok (a1, σ1)) :
    m.step al (.assign i j) = .ok ⟨σ1, m.setObj i (some a1)⟩ := by
  simp [step, hi, hj, hok]

/-- Effect of `i.Swap(j)` on two existing handles. -/
theorem step_swap (al : Allocator) (m : Machine) (i j : Nat) (a b : IntPtr)
    (hi : m.objs i = some a) (hj : m.objs j = some b) :
    ∃ m1, m.step al (.swap i j) = .ok m1 ∧
      m1.objs i = some b ∧ m1.objs j = some a ∧ m1.heap = m.heap ∧
      (∀ k, k ≠ i → k ≠ j → m1.objs k = m.objs k) := by
  refine ⟨⟨m.heap, (Machine.mk m.heap (m.setObj j (some (a.Swap b).2))).setObj i
    (some (a.Swap b).1)⟩, ?_, ?_, ?_, rfl, ?_⟩
  · simp only [Machine.step, hi, hj]
  · simp [Machine.setObj, IntPtr.Swap]
  · by_cases hji : j = i
    · subst hji
      have hab : a = b := by rw [hi] at hj; exact Option.some.inj hj
      simp [Machine.setObj, IntPtr.Swap, hab]
    · simp [Machine.setObj, IntPtr.Swap, hji]
  · intro k hki hkj
    simp [Machine.setObj, hki, hkj]

theorem step_store (al : Allocator) (m : Machine) (i : Nat) (a : IntPtr) (w z : Int)
    (hi : m.objs i = some a) (hr : m.heap.read a.m_Ptr = some w) :
    m.step al (.store i z) = .ok ⟨m.heap.write a.m_Ptr z, m.objs⟩ := by
  simp [step, hi, IntPtr.store, hr]

end Machine

/-- C1: for two distinct handles `a` (named `i`) and `b` (named `j`), each
empty or owning a live object and not owning the same object, when the
allocation (if any) succeeds the statement `a = b` completes; afterwards `a`
is valid exactly when `b` is, when valid `*a` is readable and equals `*b`,
and `b` stores the same pointer with the same pointee as before. -/
theorem Machine.assign_copies (al : Allocator) (m : Machine) (i j : Nat) (a b : IntPtr)
    (hij : i ≠ j) (hi : m.objs i = some a) (hj : m.objs j = some b)
    (ha : a.isValid = true → (m.heap.read a.m_Ptr).isSome = true)
    (hb : b.isValid = true → (m.heap.read b.m_Ptr).isSome = true)
    (hne : a.isValid = true → a.m_Ptr ≠ b.m_Ptr)
    (hal : b.isValid = true → (al.alloc m.heap).isSome = true) :
    ∃ m1 a1, m.step al (.assign i j) = .ok m1 ∧ m1.objs i = some a1 ∧
      (a1.isValid = true ↔ b.isValid = true) ∧
      (b.isValid = true →
        (a1.deref m1.heap).isSome = true ∧ a1.deref m1.heap = b.deref m1.heap) ∧
      m1.objs j = some b ∧ b.deref m1.heap = b.deref m.heap := by
  obtain ⟨a1, σ1, hok, hv, hfresh, hd, _, hframe⟩ :=
    IntPtr.assign_spec al a b m.heap ha hb hal
  have hbkeep : b.deref σ1 = b.deref m.heap := by
    by_cases hbv : b.isValid = true
    · have hbnn : b.m_Ptr ≠ NULL := (IntPtr.isValid_iff b).mp hbv
      have h1 : b.m_Ptr ≠ a.m_Ptr := by
        by_cases hav : a.isValid = true
        · exact fun e => hne hav e.symm
        · have hf : a.isValid = false := by simpa using hav
          rw [(IntPtr.isValid_false_iff a).mp hf]; exact hbnn
      have h2 : b.m_Ptr ≠ a1.m_Ptr := by
        intro e
        have hl := hb hbv
        rw [e, hfresh (hv.trans hbv)] at hl
        cases hl
      exact hframe _ h1 h2
    · have hf : b.isValid = false := by simpa using hbv
      simp [IntPtr.deref, (IntPtr.isValid_false_iff b).mp hf, Heap.read_null]
  refine ⟨⟨σ1, m.setObj i (some a1)⟩, a1, ?_, ?_, ?_, ?_, ?_, hbkeep⟩
  · simp [Machine.step, hi, hj, hok]
  · simp [Machine.setObj]
  · rw [hv]
  · intro hbv
    show (a1.deref σ1).isSome = true ∧ a1.deref σ1 = b.deref σ1
    rw [hbkeep, hd]
    exact ⟨hb hbv, rfl⟩
  · show m.setObj i (some a1) j = some b
    have hji : j ≠ i := fun e => hij e.symm
    simp [Machine.setObj, hji, hj]

/-- Witness of C1: `a` owns 20 at address 2, `b` owns 10 at address 1. -/
theorem Machine.assign_copies_witness :
    ∃ m1 a1, (Machine.mk ((Heap.empty.write 1 10).write 2 20)
        (fun n => if n = 0 then some ⟨2⟩ else if n = 1 then some ⟨1⟩ else none)).step
          Allocator.bump (.assign 0 1) = .ok m1 ∧ m1.objs 0 = some a1 ∧
      (a1.isValid = true ↔ (IntPtr.mk 1).isValid = true) ∧
      ((IntPtr.mk 1).isValid = true →
        (a1.deref m1.heap).isSome = true ∧ a1.deref m1.heap = (IntPtr.mk 1).deref m1.heap) ∧
      m1.objs 1 = some ⟨1⟩ ∧
      (IntPtr.mk 1).deref m1.heap = (IntPtr.mk 1).deref ((Heap.empty.write 1 10).write 2 20) :=
  Machine.assign_copies Allocator.bump _ 0 1 ⟨2⟩ ⟨1⟩ (by decide) rfl rfl
    (fun _ => by decide) (fun _ => by decide) (fun _ => by decide)
    (fun _ => by simp [Allocator.bump_alloc])

/-- C2: when `b` is valid and the allocation of the clone fails, the statement
`a = b` throws, and the machine it leaves is the machine before the
statement: `a` stores the same pointer and the free store, hence the pointee
of `a`, is the same. -/
theorem Machine.assign_bad_alloc_unchanged (al : Allocator) (m : Machine) (i j : Nat)
    (a b : IntPtr) (hi : m.objs i = some a) (hj : m.objs j = some b)
    (hbv : b.isValid = true) (hal : al.alloc m.heap = none) :
    ∃ m1, m.step al (.assign i j) = .thrown m1 ∧
      m1.objs i = some a ∧ m1.heap = m.heap ∧ a.deref m1.heap = a.deref m.heap ∧
      m1.objs = m.objs := by
  have hthrow := IntPtr.assign_of_bad_alloc al a b m.heap hbv hal
  refine ⟨⟨m.heap, m.setObj i (some a)⟩, ?_, ?_, rfl, rfl, ?_⟩
  · simp [Machine.step, hi, hj, hthrow]
  · simp [Machine.setObj]
  · funext n
    by_cases hn : n = i
    · subst hn; simp [Machine.setObj, hi]
    · simp [Machine.setObj, hn]

/-- Witness of C2: `a` owns 20 at address 2, `b` owns 10 at address 1, and
the arena has room for two objects only. -/
theorem Machine.assign_bad_alloc_unchanged_witness :
    ∃ m1, (Machine.mk ((Heap.empty.write 1 10).write 2 20)
        (fun n => if n = 0 then some ⟨2⟩ else if n = 1 then some ⟨1⟩ else none)).step
          (Allocator.arena 2) (.assign 0 1) = .thrown m1 ∧
      m1.objs 0 = some ⟨2⟩ ∧ m1.heap = (Heap.empty.write 1 10).write 2 20 ∧
      (IntPtr.mk 2).deref m1.heap = (IntPtr.mk 2).deref ((Heap.empty.write 1 10).write 2 20) ∧
      m1.objs = (fun n => if n = 0 then some ⟨2⟩ else if n = 1 then some ⟨1⟩ else none) :=
  Machine.assign_bad_alloc_unchanged (Allocator.arena 2) _ 0 1 ⟨2⟩ ⟨1⟩ rfl rfl
    (by decide) (by decide)

/-- C7: for every handle `h` whose pointee is readable (so `h` is valid),
the self-assignment `h = h` completes when the allocation of the clone
succeeds and throws when it fails; in both cases `h` is valid afterwards and
`*h` is the value it was before. -/
theorem Machine.self_assign_keeps_value (al : Allocator) (m : Machine) (i : Nat)
    (h : IntPtr) (v : Int) (hi : m.objs i = some h) (hv : h.deref m.heap = some v) :
    ∃ m1 h1,
      ((al.alloc m.heap).isSome = true → m.step al (.assign i i) = .ok m1) ∧
      ((al.alloc m.heap).isSome = false → m.step al (.assign i i) = .thrown m1) ∧
      m1.objs i = some h1 ∧ h1.isValid = true ∧ h1.deref m1.heap = some v := by
  have hvalid : h.isValid = true := IntPtr.isValid_of_deref h m.heap v hv
  cases hp : al.alloc m.heap with
  | none =>
    have hthrow := IntPtr.assign_of_bad_alloc al h h m.heap hvalid hp
    refine ⟨⟨m.heap, m.setObj i (some h)⟩, h, ?_, ?_, ?_, hvalid, hv⟩
    · intro hs; cases hs
    · intro _; simp [Machine.step, hi, hthrow]
    · simp [Machine.setObj]
  | some p =>
    have hlive : h.isValid = true → (m.heap.read h.m_Ptr).isSome = true := by
      intro _
      have : m.heap.read h.m_Ptr = some v := hv
      rw [this]; rfl
    obtain ⟨a1, σ1, hok, _, _, hd, _, _⟩ :=
      IntPtr.assign_spec al h h m.heap hlive hlive (fun _ => by rw [hp]; rfl)
    have hd1 : a1.deref σ1 = some v := hd.trans hv
    refine ⟨⟨σ1, m.setObj i (some a1)⟩, a1, ?_, ?_, ?_, ?_, hd1⟩
    · intro _; simp [Machine.step, hi, hok]
    · intro hs; cases hs
    · simp [Machine.setObj]
    · exact IntPtr.isValid_of_deref a1 σ1 v hd1

/-- Witness of C7: `h` owns 10 at address 1. -/
theorem Machine.self_assign_keeps_value_witness :
    ∃ m1 h1,
      ((Allocator.bump.alloc (Heap.empty.write 1 10)).isSome = true →
        (Machine.mk (Heap.empty.write 1 10) (fun n => if n = 0 then some ⟨1⟩ else none)).step
          Allocator.bump (.assign 0 0) = .ok m1) ∧
      ((Allocator.bump.alloc (Heap.empty.write 1 10)).isSome = false →
        (Machine.mk (Heap.empty.write 1 10) (fun n => if n = 0 then some ⟨1⟩ else none)).step
          Allocator.bump (.assign 0 0) = .thrown m1) ∧
      m1.objs 0 = some h1 ∧ h1.isValid = true ∧ h1.deref m1.heap = some 10 :=
  Machine.self_assign_keeps_value Allocator.bump
    (Machine.mk (Heap.empty.write 1 10) (fun n => if n = 0 then some ⟨1⟩ else none))
    0 ⟨1⟩ 10 rfl (by decide)

/-- C9: for all handles `a` (named `i`) and `b` (named `j`), empty or not,
the same object or not, and for every allocator, `a.Swap(b)` completes;
afterwards `a` stores the pointer `b` stored and `b` the pointer `a` stored,
the free store is the same and every other handle is the same. -/
theorem Machine.swap_exchanges (al : Allocator) (m : Machine) (i j : Nat) (a b : IntPtr)
    (hi : m.objs i = some a) (hj : m.objs j = some b) :
    ∃ m1, m.step al (.swap i j) = .ok m1 ∧
      m1.objs i = some b ∧ m1.objs j = some a ∧ m1.heap = m.heap ∧
      (∀ k, k ≠ i → k ≠ j → m1.objs k = m.objs k) :=
  Machine.step_swap al m i j a b hi hj

/-- Witness of C9: the handle named 0 owns address 1, the handle named 1 is
empty, and the allocator always fails. -/
theorem Machine.swap_exchanges_witness :
    ∃ m1, (Machine.mk (Heap.empty.write 1 10)
        (fun n => if n = 0 then some ⟨1⟩ else if n = 1 then some ⟨NULL⟩ else none)).step
          Allocator.exhausted (.swap 0 1) = .ok m1 ∧
      m1.objs 0 = some ⟨NULL⟩ ∧ m1.objs 1 = some ⟨1⟩ ∧ m1.heap = Heap.empty.write 1 10 ∧
      (∀ k, k ≠ 0 → k ≠ 1 → m1.objs k =
        (fun n => if n = 0 then some ⟨1⟩ else if n = 1 then some ⟨NULL⟩ else none) k) :=
  Machine.swap_exchanges Allocator.exhausted _ 0 1 ⟨1⟩ ⟨NULL⟩ rfl rfl

/-- C8: for all handles `a` (named `i`) and `b` (named `j`), performing
`a.Swap(b)` twice completes and yields the machine it started from: `a` and
`b` store the pointers they stored originally and the free store is the
same. -/
theorem Machine.swap_swap (al : Allocator) (m : Machine) (i j : Nat) (a b : IntPtr)
    (hi : m.objs i = some a) (hj : m.objs j = some b) :
    ∃ m1 m2, m.step al (.swap i j) = .ok m1 ∧ m1.step al (.swap i j) = .ok m2 ∧
      m2.objs i = some a ∧ m2.objs j = some b ∧ m2.heap = m.heap ∧ m2.objs = m.objs := by
  obtain ⟨m1, h1, h1i, h1j, h1h, h1k⟩ := Machine.step_swap al m i j a b hi hj
  obtain ⟨m2, h2, h2i, h2j, h2h, h2k⟩ := Machine.step_swap al m1 i j b a h1i h1j
  refine ⟨m1, m2, h1, h2, h2i, h2j, h2h.trans h1h, ?_⟩
  funext k
  by_cases hki : k = i
  · rw [hki, h2i, hi]
  · by_cases hkj : k = j
    · rw [hkj, h2j, hj]
    · rw [h2k k hki hkj, h1k k hki hkj]

/-- Witness of C8: the handle named 0 owns address 1, the handle named 1
owns address 2. -/
theorem Machine.swap_swap_witness :
    ∃ m1 m2, (Machine.mk ((Heap.empty.write 1 10).write 2 20)
        (fun n => if n = 0 then some ⟨1⟩ else if n = 1 then some ⟨2⟩ else none)).step
          Allocator.bump (.swap 0 1) = .ok m1 ∧ m1.step Allocator.bump (.swap 0 1) = .ok m2 ∧
      m2.objs 0 = some ⟨1⟩ ∧ m2.objs 1 = some ⟨2⟩ ∧
      m2.heap = (Heap.empty.write 1 10).write 2 20 ∧
      m2.objs = (fun n => if n = 0 then some ⟨1⟩ else if n = 1 then some ⟨2⟩ else none) :=
  Machine.swap_swap Allocator.bump _ 0 1 ⟨1⟩ ⟨2⟩ rfl rfl

/-- C3: for all ints x, y, z, with an allocator that never fails, the block
`IntPtr a(new int(x)); IntPtr b(new int(y)); b = a;` completes with `*a` and
`*b` both equal to x, and a following `*a = z;` completes and leaves `*b`
equal to x while `*a` is z. -/
theorem Machine.assign_then_store_independent (al : Allocator) (hal : al.NeverFails)
    (m : Machine) (a b : Nat) (hab : a ≠ b) (ha : m.objs a = none) (hb : m.objs b = none)
    (x y z : Int) :
    ∃ m1 m2, m.run al [.construct a x, .construct b y, .assign b a] = .ok m1 ∧
      m1.valOf a = some x ∧ m1.valOf b = some x ∧
      m1.step al (.store a z) = .ok m2 ∧
      m2.valOf a = some z ∧ m2.valOf b = some x := by
  have hba : b ≠ a := fun e => hab e.symm
  -- `IntPtr a(new int(x));`
  obtain ⟨p1, hp1⟩ := Option.isSome_iff_exists.mp (hal m.heap)
  obtain ⟨hp1n, _⟩ := al.fresh _ _ hp1
  have hs1 := Machine.step_construct al m a x p1 ha hp1
  generalize hm1 : (Machine.mk (m.heap.write p1 x) (m.setObj a (some ⟨p1⟩))) = ma at hs1
  have hma_heap : ma.heap = m.heap.write p1 x := by rw [← hm1]
  have hma_a : ma.objs a = some ⟨p1⟩ := by rw [← hm1]; simp [Machine.setObj]
  have hma_b : ma.objs b = none := by rw [← hm1]; simp [Machine.setObj, hba, hb]
  have hr1 : ma.heap.read p1 = some x := by
    rw [hma_heap]; exact Heap.read_write_same _ _ _ hp1n
  -- `IntPtr b(new int(y));`
  obtain ⟨p2, hp2⟩ := Option.isSome_iff_exists.mp (hal ma.heap)
  obtain ⟨hp2n, hp2f⟩ := al.fresh _ _ hp2
  have hp12 : p1 ≠ p2 := by
    intro e; rw [e, hp2f] at hr1; cases hr1
  have hs2 := Machine.step_construct al ma b y p2 hma_b hp2
  generalize hm2 : (Machine.mk (ma.heap.write p2 y) (ma.setObj b (some ⟨p2⟩))) = mb at hs2
  have hmb_heap : mb.heap = ma.heap.write p2 y := by rw [← hm2]
  have hmb_a : mb.objs a = some ⟨p1⟩ := by rw [← hm2]; simp [Machine.setObj, hab, hma_a]
  have hmb_b : mb.objs b = some ⟨p2⟩ := by rw [← hm2]; simp [Machine.setObj]
  have hr2a : mb.heap.read p1 = some x := by
    rw [hmb_heap, Heap.read_write_other _ _ _ _ hp12]; exact hr1
  have hr2b : mb.heap.read p2 = some y := by
    rw [hmb_heap]; exact Heap.read_write_same _ _ _ hp2n
  -- `b = a;`
  obtain ⟨a1, σ3, hok, hv, hfresh, hd, _, hframe⟩ :=
    IntPtr.assign_spec al ⟨p2⟩ ⟨p1⟩ mb.heap
      (fun _ => by rw [hr2b]; rfl) (fun _ => by rw [hr2a]; rfl) (fun _ => hal mb.heap)
  have hs3 := Machine.step_assign al mb b a ⟨p2⟩ ⟨p1⟩ a1 σ3 hmb_b hmb_a hok
  have hd3 : σ3.read a1.m_Ptr = some x := hd.trans hr2a
  have ha1v : a1.isValid = true := IntPtr.isValid_of_deref a1 σ3 x hd3
  have hne1 : p1 ≠ a1.m_Ptr := by
    intro e
    have := hfresh ha1v
    rw [← e, hr2a] at this; cases this
  have hr3a : σ3.read p1 = some x := by
    rw [hframe p1 hp12 hne1]; exact hr2a
  refine ⟨⟨σ3, mb.setObj b (some a1)⟩, ⟨σ3.write p1 z, mb.setObj b (some a1)⟩, ?_, ?_, ?_, ?_, ?_, ?_⟩
  · simp [Machine.run, hs1, hs2, hs3]
  · simp [Machine.valOf, Machine.setObj, hab, hmb_a, IntPtr.deref, hr3a]
  · simp [Machine.valOf, Machine.setObj, IntPtr.deref, hd3]
  · have hobj : (Machine.mk σ3 (mb.setObj b (some a1))).objs a = some ⟨p1⟩ := by
      simp [Machine.setObj, hab, hmb_a]
    exact Machine.step_store al _ a ⟨p1⟩ x z hobj hr3a
  · simp [Machine.valOf, Machine.setObj, hab, hmb_a, IntPtr.deref,
      Heap.read_write_same _ _ _ hp1n]
  · have : (σ3.write p1 z).read a1.m_Ptr = some x := by
      rw [Heap.read_write_other _ _ _ _ (fun e => hne1 e.symm)]; exact hd3
    simp [Machine.valOf, Machine.setObj, IntPtr.deref, this]

/-- Witness of C3: the test block of the source, `a` over 10 and `b` over 20,
followed by `*a = 30;`, from the empty machine with the bump allocator. -/
theorem Machine.assign_then_store_independent_witness :
    ∃ m1 m2, Machine.init.run Allocator.bump
        [.construct 0 10, .construct 1 20, .assign 1 0] = .ok m1 ∧
      m1.valOf 0 = some 10 ∧ m1.valOf 1 = some 10 ∧
      m1.step Allocator.bump (.store 0 30) = .ok m2 ∧
      m2.valOf 0 = some 30 ∧ m2.valOf 1 = some 10 :=
  Machine.assign_then_store_independent Allocator.bump Allocator.bump_neverFails
    Machine.init 0 1 (by decide) rfl rfl 10 20 30

/-! ## The ownership invariant -/

namespace IntPtr

theorem alloc_of_copy_ok (al : Allocator) (h : IntPtr) (σ : Heap) (r : IntPtr × Heap)
    (hok : copy al h σ = .ok r) (hv : h.isValid = true) : (al.alloc σ).isSome = true := by
  cases hp : al.alloc σ with
  | none => rw [copy_of_bad_alloc al h σ hv hp] at hok; cases hok
  | some p => rfl

theorem alloc_of_assign_ok (al : Allocator) (self other : IntPtr) (σ : Heap)
    (r : IntPtr × Heap) (hok : assign al self other σ = .ok r)
    (hv : other.isValid = true) : (al.alloc σ).isSome = true := by
  cases hp : al.alloc σ with
  | none => rw [assign_of_bad_alloc al self other σ hv hp] at hok; cases hok
  | some p => rfl

end IntPtr

namespace Machine

/-- Placing at `k` a handle that is empty or owns an object that was not live
before, while the pointees of the other handles stay readable, keeps the
ownership invariant. -/
theorem replace_preserves (m : Machine) (k : Nat) (c : IntPtr) (σ1 : Heap)
    (hl : m.Live) (he : m.Exclusive)
    (hfresh : c.isValid = true → m.heap.read c.m_Ptr = none)
    (hclive : c.isValid = true → (σ1.read c.m_Ptr).isSome = true)
    (hframe : ∀ n d, n ≠ k → m.objs n = some d → d.isValid = true →
      σ1.read d.m_Ptr = m.heap.read d.m_Ptr) :
    (Machine.mk σ1 (m.setObj k (some c))).Live ∧
      (Machine.mk σ1 (m.setObj k (some c))).Exclusive := by
  have hclash : ∀ n d, m.objs n = some d → d.isValid = true → d.m_Ptr ≠ c.m_Ptr := by
    intro n d hn hd e
    have hcv : c.isValid = true := by
      rw [IntPtr.isValid_iff] at hd ⊢; rw [← e]; exact hd
    have h1 := hl n d hn hd
    rw [e, hfresh hcv] at h1
    cases h1
  constructor
  · intro n d hn hd
    by_cases hnk : n = k
    · have hdc : c = d := by simpa [setObj, hnk] using hn
      subst hdc; exact hclive hd
    · have hn1 : m.objs n = some d := by simpa [setObj, hnk] using hn
      show (σ1.read d.m_Ptr).isSome = true
      rw [hframe n d hnk hn1 hd]; exact hl n d hn1 hd
  · intro n n2 d d2 hn hn2 hd e
    by_cases hnk : n = k
    · by_cases hn2k : n2 = k
      · rw [hnk, hn2k]
      · have hdc : c = d := by simpa [setObj, hnk] using hn
        have h2 : m.objs n2 = some d2 := by simpa [setObj, hn2k] using hn2
        have hd2 : d2.isValid = true := by
          rw [IntPtr.isValid_iff] at hd ⊢; rw [← e]; exact hd
        subst hdc
        exact absurd e.symm (hclash n2 d2 h2 hd2)
    · have h1 : m.objs n = some d := by simpa [setObj, hnk] using hn
      by_cases hn2k : n2 = k
      · have hdc : c = d2 := by simpa [setObj, hn2k] using hn2
        subst hdc
        exact absurd e (hclash n d h1 hd)
      · have h2 : m.objs n2 = some d2 := by simpa [setObj, hn2k] using hn2
        exact he n n2 d d2 h1 h2 hd e

/-- Removing the handle at `k`, while the pointees of the other handles stay
readable, keeps the ownership invariant. -/
theorem remove_preserves (m : Machine) (k : Nat) (σ1 : Heap)
    (hl : m.Live) (he : m.Exclusive)
    (hframe : ∀ n d, n ≠ k → m.objs n = some d → d.isValid = true →
      σ1.read d.m_Ptr = m.heap.read d.m_Ptr) :
    (Machine.mk σ1 (m.setObj k none)).Live ∧ (Machine.mk σ1 (m.setObj k none)).Exclusive := by
  constructor
  · intro n d hn hd
    by_cases hnk : n = k
    · simp [setObj, hnk] at hn
    · have hn1 : m.objs n = some d := by simpa [setObj, hnk] using hn
      show (σ1.read d.m_Ptr).isSome = true
      rw [hframe n d hnk hn1 hd]; exact hl n d hn1 hd
  · intro n n2 d d2 hn hn2 hd e
    by_cases hnk : n = k
    · simp [setObj, hnk] at hn
    · by_cases hn2k : n2 = k
      · simp [setObj, hn2k] at hn2
      · have h1 : m.objs n = some d := by simpa [setObj, hnk] using hn
        have h2 : m.objs n2 = some d2 := by simpa [setObj, hn2k] using hn2
        exact he n n2 d d2 h1 h2 hd e

/-- A handle other than the one named `k` does not point to the object of
the handle named `k`, nor to a pointer that is null or not live. -/
theorem other_ptr_ne (m : Machine) (hl : m.Live) (he : m.Exclusive) (k n : Nat)
    (c d : IntPtr) (hk : m.objs k = some c) (hn : m.objs n = some d) (hnk : n ≠ k)
    (hd : d.isValid = true) :
    d.m_Ptr ≠ c.m_Ptr ∧ ∀ q, m.heap.read q = none → d.m_Ptr ≠ q := by
  constructor
  · intro e; exact hnk (he n k d c hn hk hd e)
  · intro q hq e
    have h1 := hl n d hn hd
    rw [e, hq] at h1; cases h1

theorem construct_preserves (al : Allocator) (m m1 : Machine) (k : Nat) (v : Int)
    (hl : m.Live) (he : m.Exclusive) (hstep : m.step al (.construct k v) = .ok m1) :
    m1.Live ∧ m1.Exclusive := by
  cases hk : m.objs k with
  | some o => simp [step, hk] at hstep
  | none =>
    cases hp : al.alloc m.heap with
    | none => simp [step, hk, Heap.newInt, hp] at hstep
    | some p =>
      rw [step_construct al m k v p hk hp] at hstep
      injection hstep with hm
      subst hm
      obtain ⟨hnn, hfr⟩ := al.fresh _ _ hp
      refine replace_preserves m k ⟨p⟩ _ hl he (fun _ => hfr) ?_ ?_
      · intro _
        rw [Heap.read_write_same _ _ _ hnn]; rfl
      · intro n d _ hn hd
        refine Heap.read_write_other _ _ _ _ ?_
        intro e
        have h1 := hl n d hn hd
        rw [e, hfr] at h1; cases h1

theorem constructNull_preserves (al : Allocator) (m m1 : Machine) (k : Nat)
    (hl : m.Live) (he : m.Exclusive) (hstep : m.step al (.constructNull k) = .ok m1) :
    m1.Live ∧ m1.Exclusive := by
  cases hk : m.objs k with
  | some o => simp [step, hk] at hstep
  | none =>
    simp only [step, hk] at hstep
    injection hstep with hm
    subst hm
    have hnv : (IntPtr.ctor NULL).isValid = true → False := by
      intro h; exact absurd h (by decide)
    exact replace_preserves m k (IntPtr.ctor NULL) _ hl he
      (fun h => (hnv h).elim) (fun h => (hnv h).elim) (fun _ _ _ _ _ => rfl)

theorem copyConstruct_preserves (al : Allocator) (m m1 : Machine) (k j : Nat)
    (hl : m.Live) (he : m.Exclusive) (hstep : m.step al (.copyConstruct k j) = .ok m1) :
    m1.Live ∧ m1.Exclusive := by
  cases hk : m.objs k with
  | some o => simp [step, hk] at hstep
  | none =>
    cases hj : m.objs j with
    | none => simp [step, hk, hj] at hstep
    | some other =>
      cases hc : IntPtr.copy al other m.heap with
      | thrown e => simp [step, hk, hj, hc] at hstep
      | undefined => simp [step, hk, hj, hc] at hstep
      | ok r =>
        obtain ⟨c, σ1, hok, hv, hfresh, hd, hframe⟩ :=
          IntPtr.copy_spec al other m.heap (hl j other hj)
            (IntPtr.alloc_of_copy_ok al other m.heap r hc)
        simp only [step, hk, hj, hok] at hstep
        injection hstep with hm
        subst hm
        refine replace_preserves m k c σ1 hl he hfresh ?_ ?_
        · intro hcv
          show (c.deref σ1).isSome = true
          rw [hd]; exact hl j other hj (hv ▸ hcv)
        · intro n d _ hn hdv
          refine hframe _ ?_
          intro e
          have hcv : c.isValid = true := by
            rw [IntPtr.isValid_iff] at hdv ⊢; rw [← e]; exact hdv
          have h1 := hl n d hn hdv
          rw [e, hfresh hcv] at h1; cases h1

theorem assign_preserves (al : Allocator) (m m1 : Machine) (i j : Nat)
    (hl : m.Live) (he : m.Exclusive) (hstep : m.step al (.assign i j) = .ok m1) :
    m1.Live ∧ m1.Exclusive := by
  cases hi : m.objs i with
  | none => simp [step, hi] at hstep
  | some self =>
    cases hj : m.objs j with
    | none => simp [step, hi, hj] at hstep
    | some other =>
      cases hc : IntPtr.assign al self other m.heap with
      | thrown e => simp [step, hi, hj, hc] at hstep
      | undefined => simp [step, hi, hj, hc] at hstep
      | ok r =>
        obtain ⟨a1, σ1, hok, hv, hfresh, hd, _, hframe⟩ :=
          IntPtr.assign_spec al self other m.heap (hl i self hi) (hl j other hj)
            (IntPtr.alloc_of_assign_ok al self other m.heap r hc)
        rw [step_assign al m i j self other a1 σ1 hi hj hok] at hstep
        injection hstep with hm
        subst hm
        refine replace_preserves m i a1 σ1 hl he hfresh ?_ ?_
        · intro hcv
          show (a1.deref σ1).isSome = true
          rw [hd]; exact hl j other hj (hv ▸ hcv)
        · intro n d hni hn hdv
          refine hframe _ (other_ptr_ne m hl he i n self d hi hn hni hdv).1 ?_
          intro e
          have hcv : a1.isValid = true := by
            rw [IntPtr.isValid_iff] at hdv ⊢; rw [← e]; exact hdv
          have h1 := hl n d hn hdv
          rw [e, hfresh hcv] at h1; cases h1

theorem swap_preserves (al : Allocator) (m m1 : Machine) (i j : Nat)
    (hl : m.Live) (he : m.Exclusive) (hstep : m.step al (.swap i j) = .ok m1) :
    m1.Live ∧ m1.Exclusive := by
  cases hi : m.objs i with
  | none => simp [step, hi] at hstep
  | some a =>
    cases hj : m.objs j with
    | none => simp [step, hi, hj] at hstep
    | some b =>
      simp only [step, hi, hj] at hstep
      injection hstep with hm
      subst hm
      have hperm : ∀ n, (Machine.mk m.heap ((Machine.mk m.heap
          (m.setObj j (some (a.Swap b).2))).setObj i (some (a.Swap b).1))).objs n
            = m.objs (Equiv.swap i j n) := by
        intro n
        by_cases hni : n = i
        · subst hni
          simp [setObj, IntPtr.Swap, hj]
        · by_cases hnj : n = j
          · subst hnj
            simp [setObj, IntPtr.Swap, hni, hi]
          · simp [setObj, hni, hnj, Equiv.swap_apply_of_ne_of_ne hni hnj]
      constructor
      · intro n d hn hd
        rw [hperm n] at hn
        exact hl _ d hn hd
      · intro n n2 d d2 hn hn2 hd e
        rw [hperm n] at hn
        rw [hperm n2] at hn2
        exact (Equiv.swap i j).injective (he _ _ d d2 hn hn2 hd e)

theorem destroy_preserves (al : Allocator) (m m1 : Machine) (i : Nat)
    (hl : m.Live) (he : m.Exclusive) (hstep : m.step al (.destroy i) = .ok m1) :
    m1.Live ∧ m1.Exclusive := by
  cases hi : m.objs i with
  | none => simp [step, hi] at hstep
  | some self =>
    obtain ⟨σ1, hd, _, hd2, hframe⟩ := IntPtr.dtor_spec self m.heap (hl i self hi)
    simp only [step, hi, hd] at hstep
    injection hstep with hm
    subst hm
    refine remove_preserves m i σ1 hl he ?_
    intro n d hni hn hdv
    exact hframe _ (other_ptr_ne m hl he i n self d hi hn hni hdv).1

theorem store_preserves (al : Allocator) (m m1 : Machine) (i : Nat) (z : Int)
    (hl : m.Live) (he : m.Exclusive) (hstep : m.step al (.store i z) = .ok m1) :
    m1.Live ∧ m1.Exclusive := by
  cases hi : m.objs i with
  | none => simp [step, hi] at hstep
  | some self =>
    cases hr : m.heap.read self.m_Ptr with
    | none => simp [step, hi, IntPtr.store, hr] at hstep
    | some w =>
      rw [step_store al m i self w z hi hr] at hstep
      injection hstep with hm
      subst hm
      have hnn : self.m_Ptr ≠ NULL := by
        intro e; rw [e, Heap.read_null] at hr; cases hr
      constructor
      · intro n d hn hd
        show ((m.heap.write self.m_Ptr z).read d.m_Ptr).isSome = true
        by_cases hp : d.m_Ptr = self.m_Ptr
        · rw [hp, Heap.read_write_same _ _ _ hnn]; rfl
        · rw [Heap.read_write_other _ _ _ _ hp]; exact hl n d hn hd
      · exact he

/-- Every statement that completes keeps the ownership invariant. -/
theorem step_preserves (al : Allocator) (op : Op) (m m1 : Machine)
    (hl : m.Live) (he : m.Exclusive) (hstep : m.step al op = .ok m1) :
    m1.Live ∧ m1.Exclusive := by
  cases op with
  | construct k v => exact construct_preserves al m m1 k v hl he hstep
  | constructNull k => exact constructNull_preserves al m m1 k hl he hstep
  | copyConstruct k j => exact copyConstruct_preserves al m m1 k j hl he hstep
  | assign i j => exact assign_preserves al m m1 i j hl he hstep
  | swap i j => exact swap_preserves al m m1 i j hl he hstep
  | destroy i => exact destroy_preserves al m m1 i hl he hstep
  | store i z => exact store_preserves al m m1 i z hl he hstep

/-- Every sequence of statements that completes keeps the ownership
invariant. -/
theorem run_preserves (al : Allocator) (ops : List Op) (m m1 : Machine)
    (hl : m.Live) (he : m.Exclusive) (hrun : m.run al ops = .ok m1) :
    m1.Live ∧ m1.Exclusive := by
  induction ops generalizing m with
  | nil =>
    simp only [run] at hrun
    injection hrun with hm
    subst hm; exact ⟨hl, he⟩
  | cons op rest ih =>
    cases hs : m.step al op with
    | thrown e => simp [run, hs] at hrun
    | undefined => simp [run, hs] at hrun
    | ok m2 =>
      simp only [run, hs] at hrun
      obtain ⟨hl2, he2⟩ := step_preserves al op m m2 hl he hs
      exact ih m2 hl2 he2 hrun

end Machine

/-- C6: from a machine whose valid handles own pairwise distinct live
objects, every completed sequence of constructions over `new int`, empty
constructions, copy constructions, copy assignments, `Swap`s, destructions
and writes through a handle reaches a machine in which no two handles hold
the same non-null pointer (and every valid handle still owns a live
object). -/
theorem Machine.exclusive_ownership (al : Allocator) (ops : List Op) (m m1 : Machine)
    (hl : m.Live) (he : m.Exclusive) (hrun : m.run al ops = .ok m1) :
    (∀ i j a b, m1.objs i = some a → m1.objs j = some b →
      a.m_Ptr ≠ NULL → a.m_Ptr = b.m_Ptr → i = j) ∧ m1.Live := by
  obtain ⟨hl1, he1⟩ := Machine.run_preserves al ops m m1 hl he hrun
  refine ⟨?_, hl1⟩
  intro i j a b hi hj hnn e
  exact he1 i j a b hi hj ((IntPtr.isValid_iff a).mpr hnn) e

/-- Witness of C6: two handles over the distinct live objects at addresses 1
and 2, then `h1 = h0; IntPtr h2(h1); h0.Swap(h2);` and the destruction of
`h1`, with the bump allocator. -/
theorem Machine.exclusive_ownership_witness :
    ∃ m1, (Machine.mk ((Heap.empty.write 1 10).write 2 20)
        (fun n => if n = 0 then some ⟨1⟩ else if n = 1 then some ⟨2⟩ else none)).run
          Allocator.bump [.assign 1 0, .copyConstruct 2 1, .swap 0 2, .destroy 1] = .ok m1 ∧
      (∀ i j a b, m1.objs i = some a → m1.objs j = some b →
        a.m_Ptr ≠ NULL → a.m_Ptr = b.m_Ptr → i = j) ∧ m1.Live := by
  refine ⟨_, rfl, Machine.exclusive_ownership Allocator.bump
    [.assign 1 0, .copyConstruct 2 1, .swap 0 2, .destroy 1]
    (Machine.mk ((Heap.empty.write 1 10).write 2 20)
      (fun n => if n = 0 then some ⟨1⟩ else if n = 1 then some ⟨2⟩ else none)) _ ?_ ?_ rfl⟩
  · intro i a hi _
    by_cases h0 : i = 0
    · subst h0
      have : a = ⟨1⟩ := by simpa using hi.symm
      subst this; decide
    · by_cases h1 : i = 1
      · subst h1
        have : a = ⟨2⟩ := by simpa using hi.symm
        subst this; decide
      · simp [h0, h1] at hi
  · intro i j a b hi hj _ e
    by_cases h0 : i = 0
    · by_cases k0 : j = 0
      · rw [h0, k0]
      · by_cases k1 : j = 1
        · subst h0; subst k1
          have ha : a = ⟨1⟩ := by simpa using hi.symm
          have hb : b = ⟨2⟩ := by simpa using hj.symm
          subst ha; subst hb; cases e
        · simp [k0, k1] at hj
    · by_cases h1 : i = 1
      · by_cases k0 : j = 0
        · subst h1; subst k0
          have ha : a = ⟨2⟩ := by simpa using hi.symm
          have hb : b = ⟨1⟩ := by simpa using hj.symm
          subst ha; subst hb; cases e
        · by_cases k1 : j = 1
          · rw [h1, k1]
          · simp [k0, k1] at hj
      · simp [h0, h1] at hi

/-! ## Construction, member lookup and virtual calls -/

/-- C15, evaluated on the code: the default construction `Derived d;` leaves
`d.GetVal()` equal to 0, not to 1, because the body of `Base::Base()` holds
no call of `SetVal()`; a virtual call of `SetVal()` on the object as it is
during the constructor of `Base` would run `Base::SetVal` and give 1. -/
theorem VirtualInCtor.derived_ctor_getVal :
    VirtualInCtor.GetVal VirtualInCtor.Derived.ctor = 0 ∧
    VirtualInCtor.GetVal VirtualInCtor.Derived.ctor ≠ 1 ∧
    VirtualInCtor.GetVal (VirtualInCtor.SetVal VirtualInCtor.Base.ctor) = 1 := by
  refine ⟨rfl, by decide, rfl⟩

/-- C16: for every expression `r` that denotes a `Derived` object, the call
of the non-virtual `f()` returns 10 when the static type of `r` is `Base`
and 20 when it is `Derived`; the call of the virtual `v()`, and of the
virtual `f()`, returns 20 whatever the static type; the qualified call
`Base::f()` returns 10. -/
theorem Ref.derived_dispatch (r : Ref) (hd : r.dynamic = .Derived) :
    (r.static = .Base → Fields.f r = 10 ∧ Hiding.f r = 10) ∧
    (r.static = .Derived → Fields.f r = 20 ∧ Hiding.f r = 20) ∧
    Fields.v r = 20 ∧ Overriding.f r = 20 ∧
    Hiding.qualifiedBaseF r = 10 ∧ Overriding.qualifiedBaseF r = 10 := by
  refine ⟨?_, ?_, ?_, ?_, rfl, rfl⟩
  · intro hs
    simp [Fields.f, Hiding.f, hs, Fields.Base.f, Hiding.Base.f]
  · intro hs
    simp [Fields.f, Hiding.f, hs, Fields.Derived.f, Hiding.Derived.f]
  · simp [Fields.v, hd, Fields.Derived.v]
  · simp [Overriding.f, hd, Overriding.Derived.f]

/-- Witness of C16: the expression `*b` after `Derived d; Base* b = &d;`. -/
theorem Ref.derived_dispatch_witness :
    (Ref.d.toBase.static = .Base → Fields.f Ref.d.toBase = 10 ∧ Hiding.f Ref.d.toBase = 10) ∧
    (Ref.d.toBase.static = .Derived →
      Fields.f Ref.d.toBase = 20 ∧ Hiding.f Ref.d.toBase = 20) ∧
    Fields.v Ref.d.toBase = 20 ∧ Overriding.f Ref.d.toBase = 20 ∧
    Hiding.qualifiedBaseF Ref.d.toBase = 10 ∧ Overriding.qualifiedBaseF Ref.d.toBase = 10 :=
  Ref.derived_dispatch Ref.d.toBase rfl

namespace Shapes

theorem typeid_place_same (st : ShapeStore) (p : Ptr) (k : ShapeType) (hp : p ≠ NULL) :
    (st.place p k).typeid p = some k := by
  simp [ShapeStore.typeid, ShapeStore.place, hp]

theorem typeid_place_other (st : ShapeStore) (p q : Ptr) (k : ShapeType) (h : q ≠ p) :
    (st.place p k).typeid q = st.typeid q := by
  have hpq : ¬ p = q := fun e => h e.symm
  simp [ShapeStore.typeid, ShapeStore.place, List.find?_cons, hpq]

end Shapes

/-- C17: for every live shape `s` of dynamic type `k` (Rectangle or Ellipse)
called through a `Shape*`, when `operator new` yields an address `p` that is
not null and holds no live shape, `s->Clone()` completes and returns `p`,
the object at `p` has dynamic type `k`, `p` differs from `s`, and every
other object, `s` included, keeps its dynamic type. -/
theorem Shapes.clone_preserves_type (st : Shapes.ShapeStore) (s p : Ptr)
    (k : Shapes.ShapeType) (hs : st.typeid s = some k) (hp : p ≠ NULL)
    (hfresh : st.typeid p = none) :
    ∃ st1, Shapes.Shape.Clone (some p) s st = .ok (p, st1) ∧
      st1.typeid p = some k ∧ p ≠ s ∧ st1.typeid s = some k ∧
      (∀ q, q ≠ p → st1.typeid q = st.typeid q) := by
  have hne : s ≠ p := by
    intro e; rw [e, hfresh] at hs; cases hs
  cases k with
  | Rectangle =>
    refine ⟨st.place p .Rectangle, ?_, Shapes.typeid_place_same st p _ hp,
      fun e => hne e.symm, ?_, ?_⟩
    · simp [Shapes.Shape.Clone, hs, Shapes.Rectangle.Clone]
    · rw [Shapes.typeid_place_other st p s _ hne]; exact hs
    · intro q hq; exact Shapes.typeid_place_other st p q _ hq
  | Ellipse =>
    refine ⟨st.place p .Ellipse, ?_, Shapes.typeid_place_same st p _ hp,
      fun e => hne e.symm, ?_, ?_⟩
    · simp [Shapes.Shape.Clone, hs, Shapes.Ellipse.Clone]
    · rw [Shapes.typeid_place_other st p s _ hne]; exact hs
    · intro q hq; exact Shapes.typeid_place_other st p q _ hq

/-- Witness of C17: the array of the source, a Rectangle at address 1 and an
Ellipse at address 2; the Ellipse is cloned to address 3. -/
theorem Shapes.clone_preserves_type_witness :
    ∃ st1, Shapes.Shape.Clone (some 3) 2 ⟨[(1, .Rectangle), (2, .Ellipse)]⟩ = .ok (3, st1) ∧
      st1.typeid 3 = some .Ellipse ∧ 3 ≠ 2 ∧ st1.typeid 2 = some .Ellipse ∧
      (∀ q, q ≠ 3 → st1.typeid q =
        (Shapes.ShapeStore.mk [(1, .Rectangle), (2, .Ellipse)]).typeid q) :=
  Shapes.clone_preserves_type ⟨[(1, .Rectangle), (2, .Ellipse)]⟩ 2 3 .Ellipse
    (by decide) (by decide) (by decide)

/-- C20: in an `Idol`, both in the plain multiple inheritance and in the
diamond without virtual inheritance, for all x and y, after
`obj.Singer::m_Age = x; obj.Dancer::m_Age = y;` the expression
`obj.Singer::m_Age` is x and `obj.Dancer::m_Age` is y. -/
theorem idol_ages_independent (obj1 : MultipleInheritance.Idol) (obj2 : Diamond.Idol)
    (x y : Int) :
    ((obj1.setSingerAge x).setDancerAge y).singerAge = x ∧
    ((obj1.setSingerAge x).setDancerAge y).dancerAge = y ∧
    ((obj2.setSingerAge x).setDancerAge y).singerAge = x ∧
    ((obj2.setSingerAge x).setDancerAge y).dancerAge = y :=
  ⟨rfl, rfl, rfl, rfl⟩

/-! ## Arithmetic on members -/

theorem addInt_of_inRange (x y : Int) (hlo : INT_MIN ≤ x + y) (hhi : x + y ≤ INT_MAX) :
    addInt x y = some (x + y) := by
  simp [addInt, hlo, hhi]

theorem mulInt_of_inRange (x y : Int) (hlo : INT_MIN ≤ x * y) (hhi : x * y ≤ INT_MAX) :
    mulInt x y = some (x * y) := by
  simp [mulInt, hlo, hhi]

/-- Counterexample to C18 as stated: for `T(2147483647, 20, 30)` the
statement `this->a += 1` overflows, and for `T(2147483646, 20, 30)` the
statement `a += 2` overflows; no object with `t.a == a + 1` is produced. -/
theorem FieldInit.ctor_overflows_at_int_max :
    FieldInit.T.ctor 2147483647 20 30 = none ∧
    FieldInit.T.ctor 2147483646 20 30 = none ∧
    ¬ ∃ t, FieldInit.T.ctor 2147483647 20 30 = some t ∧
      t.a = 2147483647 + 1 ∧ t.b = 20 ∧ t.c = 30 := by
  refine ⟨by decide, by decide, ?_⟩
  rintro ⟨t, ht, _⟩
  have hnone : FieldInit.T.ctor 2147483647 20 30 = none := by decide
  rw [hnone] at ht
  cases ht

/-- C18, amended: for all ints a, b, c with `a + 2` not above `INT_MAX`,
constructing `T(a, b, c)` yields an object with `t.a == a + 1`, `t.b == b`
and `t.c == c`: `this->a += 1` changes the member, `a += 2` only the
parameter. -/
theorem FieldInit.ctor_members (a b c : Int) (hlo : INT_MIN ≤ a) (hhi : a + 2 ≤ INT_MAX) :
    ∃ t, FieldInit.T.ctor a b c = some t ∧ t.a = a + 1 ∧ t.b = b ∧ t.c = c := by
  have hmin : INT_MIN = -2147483648 := rfl
  have h1 : addInt a 1 = some (a + 1) :=
    addInt_of_inRange a 1 (by omega) (by omega)
  have h2 : addInt a 2 = some (a + 2) :=
    addInt_of_inRange a 2 (by omega) hhi
  refine ⟨⟨a + 1, b, c⟩, ?_, rfl, rfl, rfl⟩
  simp [FieldInit.T.ctor, h1, h2]

/-- Witness of amended C18: the object `T t(10, 20, 30)` of the source. -/
theorem FieldInit.ctor_members_witness :
    ∃ t, FieldInit.T.ctor 10 20 30 = some t ∧ t.a = 10 + 1 ∧ t.b = 20 ∧ t.c = 30 :=
  FieldInit.ctor_members 10 20 30 (by decide) (by decide)

namespace Date

theorem calc_of_inRange (self : Date)
    (hp1 : INT_MIN ≤ self.m_Year * 12) (hp2 : self.m_Year * 12 ≤ INT_MAX)
    (hs1 : INT_MIN ≤ self.m_Year * 12 + self.m_Month)
    (hs2 : self.m_Year * 12 + self.m_Month ≤ INT_MAX) :
    self.CalcTotalMonth = some (self.m_Year * 12 + self.m_Month, self) := by
  simp [CalcTotalMonth, mulInt_of_inRange _ _ hp1 hp2, addInt_of_inRange _ _ hs1 hs2]

end Date

/-- Counterexample to C19 as stated: for `Date(178956970, 10, 1)` the
product `m_Year * 12` is 2147483640 and does not overflow, yet the sum with
`m_Month` does, so `CalcTotalMonth()` does not return
`178956970 * 12 + 10`. -/
theorem Date.calc_sum_overflows :
    mulInt (Date.ctor 178956970 10 1).GetYear 12 = some 2147483640 ∧
    (Date.ctor 178956970 10 1).CalcTotalMonth = none ∧
    ¬ ∃ r, (Date.ctor 178956970 10 1).CalcTotalMonth = some r ∧
      r.1 = 178956970 * 12 + 10 := by
  refine ⟨by decide, by decide, ?_⟩
  rintro ⟨r, hr, _⟩
  have hnone : (Date.ctor 178956970 10 1).CalcTotalMonth = none := by decide
  rw [hnone] at hr
  cases hr

/-- C19, amended: for every `Date(year, month, day)` and every sequence of
`SetYear`/`SetMonth`/`SetDay` calls applied to it, when neither the product
`year * 12` nor its sum with the month overflows `int` for the current year
and month, `CalcTotalMonth()` returns the current year times 12 plus the
current month and leaves the `Date` as it is, and it returns the same value
after the day is set to any other value. -/
theorem Date.calc_total_month (year month day : Int) (calls : List Date.Call)
    (hp1 : INT_MIN ≤ ((Date.ctor year month day).applyAll calls).GetYear * 12)
    (hp2 : ((Date.ctor year month day).applyAll calls).GetYear * 12 ≤ INT_MAX)
    (hs1 : INT_MIN ≤ ((Date.ctor year month day).applyAll calls).GetYear * 12
      + ((Date.ctor year month day).applyAll calls).GetMonth)
    (hs2 : ((Date.ctor year month day).applyAll calls).GetYear * 12
      + ((Date.ctor year month day).applyAll calls).GetMonth ≤ INT_MAX) :
    ((Date.ctor year month day).applyAll calls).CalcTotalMonth =
      some (((Date.ctor year month day).applyAll calls).GetYear * 12
          + ((Date.ctor year month day).applyAll calls).GetMonth,
        (Date.ctor year month day).applyAll calls) ∧
    ∀ day2, ((((Date.ctor year month day).applyAll calls).SetDay day2).CalcTotalMonth).map
        Prod.fst =
      some (((Date.ctor year month day).applyAll calls).GetYear * 12
          + ((Date.ctor year month day).applyAll calls).GetMonth) := by
  generalize (Date.ctor year month day).applyAll calls = dt at hp1 hp2 hs1 hs2 ⊢
  refine ⟨Date.calc_of_inRange dt hp1 hp2 hs1 hs2, ?_⟩
  intro day2
  rw [Date.calc_of_inRange (dt.SetDay day2) hp1 hp2 hs1 hs2]
  rfl

/-- Witness of amended C19: the `Date(20, 2, 10)` of the source after
`SetDay(11); SetMonth(3);`. -/
theorem Date.calc_total_month_witness :
    ((Date.ctor 20 2 10).applyAll [.SetDay 11, .SetMonth 3]).CalcTotalMonth =
      some (((Date.ctor 20 2 10).applyAll [.SetDay 11, .SetMonth 3]).GetYear * 12
          + ((Date.ctor 20 2 10).applyAll [.SetDay 11, .SetMonth 3]).GetMonth,
        (Date.ctor 20 2 10).applyAll [.SetDay 11, .SetMonth 3]) ∧
    ∀ day2, ((((Date.ctor 20 2 10).applyAll [.SetDay 11, .SetMonth 3]).SetDay day2).CalcTotalMonth).map
        Prod.fst =
      some (((Date.ctor 20 2 10).applyAll [.SetDay 11, .SetMonth 3]).GetYear * 12
          + ((Date.ctor 20 2 10).applyAll [.SetDay 11, .SetMonth 3]).GetMonth) :=
  Date.calc_total_month 20 2 10 [.SetDay 11, .SetMonth 3]
    (by decide) (by decide) (by decide) (by decide)

/-! ## Release of the owned object -/

namespace IntPtr

theorem dtor_of_live (h : IntPtr) (σ : Heap) (v : Int) (hr : σ.read h.m_Ptr = some v) :
    h.dtor σ = some (σ.free h.m_Ptr) := by
  have hnn : h.m_Ptr ≠ NULL := by
    intro e; rw [e, Heap.read_null] at hr; cases hr
  simp [dtor, Heap.delete, hnn, hr]

theorem dtor_of_empty (h : IntPtr) (σ : Heap) (hv : h.isValid = false) :
    h.dtor σ = some σ := by
  simp [dtor, Heap.delete, (isValid_false_iff h).mp hv]

theorem ne_of_live_of_fresh (σ : Heap) (p q : Ptr) (v : Int)
    (hp : σ.read p = some v) (hq : σ.read q = none) : p ≠ q := by
  intro e; rw [e, hq] at hp; cases hp

/-- A completed copy assignment between two handles that own live objects,
in explicit form. -/
theorem assign_of_live (al : Allocator) (self other : IntPtr) (σ : Heap) (w v : Int) (p : Ptr)
    (hs : σ.read self.m_Ptr = some w) (ho : σ.read other.m_Ptr = some v)
    (hp : al.alloc σ = some p) :
    assign al self other σ = .ok (⟨p⟩, (σ.write p v).free self.m_Ptr) := by
  have hov : other.isValid = true := isValid_of_deref other σ v ho
  have hfr := (al.fresh σ p hp).2
  have hne : self.m_Ptr ≠ p := ne_of_live_of_fresh σ _ _ w hs hfr
  have hs1 : (σ.write p v).read self.m_Ptr = some w := by
    rw [Heap.read_write_other σ p _ v hne]; exact hs
  have hd : (IntPtr.mk self.m_Ptr).dtor (σ.write p v) = some ((σ.write p v).free self.m_Ptr) :=
    dtor_of_live ⟨self.m_Ptr⟩ (σ.write p v) w hs1
  simp [assign, copy_of_valid al other σ v p hov ho hp, Swap, hd]

end IntPtr

/-- C11: destroying a handle that owns a live object completes, adds its
pointer once to the log of released objects and leaves no live object
there; destroying an empty handle leaves the free store as it is; and after
copy-constructing `b` from `a` and destroying `b` and then `a`, the log has
grown by exactly the two distinct pointers of `b` and `a`, each released
once more than before, and neither object is live. -/
theorem IntPtr.dtor_releases_once (al : Allocator) (a : IntPtr) (σ : Heap) (v : Int)
    (hr : a.deref σ = some v) (hal : (al.alloc σ).isSome = true) :
    (∃ σ1, a.dtor σ = some σ1 ∧ σ1.released = a.m_Ptr :: σ.released ∧
      σ1.read a.m_Ptr = none ∧ ∀ q, q ≠ a.m_Ptr → σ1.read q = σ.read q) ∧
    (∀ e : IntPtr, e.isValid = false → e.dtor σ = some σ) ∧
    (∃ b σ1 σ2 σ3, IntPtr.copy al a σ = .ok (b, σ1) ∧ b.dtor σ1 = some σ2 ∧
      a.dtor σ2 = some σ3 ∧ a.m_Ptr ≠ b.m_Ptr ∧
      σ3.released = a.m_Ptr :: b.m_Ptr :: σ.released ∧
      σ3.released.count a.m_Ptr = σ.released.count a.m_Ptr + 1 ∧
      σ3.released.count b.m_Ptr = σ.released.count b.m_Ptr + 1 ∧
      σ3.read a.m_Ptr = none ∧ σ3.read b.m_Ptr = none) := by
  have hra : σ.read a.m_Ptr = some v := hr
  have hav : a.isValid = true := IntPtr.isValid_of_deref a σ v hr
  refine ⟨?_, ?_, ?_⟩
  · refine ⟨σ.free a.m_Ptr, IntPtr.dtor_of_live a σ v hra, rfl,
      Heap.read_free_same σ _, ?_⟩
    intro q hq; exact Heap.read_free_other σ _ q hq
  · intro e he; exact IntPtr.dtor_of_empty e σ he
  · obtain ⟨p, hp⟩ := Option.isSome_iff_exists.mp hal
    obtain ⟨hnn, hfr⟩ := al.fresh σ p hp
    have hne : a.m_Ptr ≠ p := IntPtr.ne_of_live_of_fresh σ _ _ v hra hfr
    have hpa : p ≠ a.m_Ptr := fun e => hne e.symm
    have hb : (σ.write p v).read (IntPtr.mk p).m_Ptr = some v :=
      Heap.read_write_same σ p v hnn
    have ha2 : ((σ.write p v).free p).read a.m_Ptr = some v := by
      rw [Heap.read_free_other _ p _ hne, Heap.read_write_other σ p _ v hne]; exact hra
    refine ⟨⟨p⟩, σ.write p v, (σ.write p v).free p, ((σ.write p v).free p).free a.m_Ptr,
      IntPtr.copy_of_valid al a σ v p hav hra hp,
      IntPtr.dtor_of_live ⟨p⟩ (σ.write p v) v hb,
      IntPtr.dtor_of_live a ((σ.write p v).free p) v ha2, hne, rfl, ?_, ?_,
      Heap.read_free_same _ _, ?_⟩
    · show (a.m_Ptr :: p :: σ.released).count a.m_Ptr = σ.released.count a.m_Ptr + 1
      rw [List.count_cons_self, List.count_cons_of_ne hne]
    · show (a.m_Ptr :: p :: σ.released).count p = σ.released.count p + 1
      rw [List.count_cons_of_ne hpa, List.count_cons_self]
    · show (((σ.write p v).free p).free a.m_Ptr).read p = none
      rw [Heap.read_free_other _ _ p hpa]; exact Heap.read_free_same _ _

/-- Witness of C11: `a` owns 10 at address 1. -/
theorem IntPtr.dtor_releases_once_witness :
    (∃ σ1, (IntPtr.mk 1).dtor (Heap.empty.write 1 10) = some σ1 ∧
      σ1.released = (IntPtr.mk 1).m_Ptr :: (Heap.empty.write 1 10).released ∧
      σ1.read (IntPtr.mk 1).m_Ptr = none ∧
      ∀ q, q ≠ (IntPtr.mk 1).m_Ptr → σ1.read q = (Heap.empty.write 1 10).read q) ∧
    (∀ e : IntPtr, e.isValid = false →
      e.dtor (Heap.empty.write 1 10) = some (Heap.empty.write 1 10)) ∧
    (∃ b σ1 σ2 σ3, IntPtr.copy Allocator.bump (IntPtr.mk 1) (Heap.empty.write 1 10)
        = .ok (b, σ1) ∧ b.dtor σ1 = some σ2 ∧
      (IntPtr.mk 1).dtor σ2 = some σ3 ∧ (IntPtr.mk 1).m_Ptr ≠ b.m_Ptr ∧
      σ3.released = (IntPtr.mk 1).m_Ptr :: b.m_Ptr :: (Heap.empty.write 1 10).released ∧
      σ3.released.count (IntPtr.mk 1).m_Ptr
        = (Heap.empty.write 1 10).released.count (IntPtr.mk 1).m_Ptr + 1 ∧
      σ3.released.count b.m_Ptr = (Heap.empty.write 1 10).released.count b.m_Ptr + 1 ∧
      σ3.read (IntPtr.mk 1).m_Ptr = none ∧ σ3.read b.m_Ptr = none) :=
  IntPtr.dtor_releases_once Allocator.bump ⟨1⟩ (Heap.empty.write 1 10) 10 (by decide)
    (by simp [Allocator.bump_alloc])

/-- C12: for two distinct handles `a` (named `i`) and `b` (named `j`) that
own distinct live objects, when the allocation succeeds `a = b` completes;
the log of released objects grows by exactly one entry, the pointer `a`
held, which is no longer live; the object of `b` is still live with its
value; `a` holds a non-null pointer that was not live before and now holds
the value of `*b`; no other object changes; and if every live object was
owned by a handle before, the same holds after. -/
theorem Machine.assign_releases_old (al : Allocator) (m : Machine) (i j : Nat)
    (a b : IntPtr) (w v : Int) (hij : i ≠ j)
    (hi : m.objs i = some a) (hj : m.objs j = some b)
    (ha : a.deref m.heap = some w) (hb : b.deref m.heap = some v)
    (hne : a.m_Ptr ≠ b.m_Ptr) (hal : (al.alloc m.heap).isSome = true) :
    ∃ m1 a1, m.step al (.assign i j) = .ok m1 ∧ m1.objs i = some a1 ∧
      m1.objs j = some b ∧
      m1.heap.released = a.m_Ptr :: m.heap.released ∧
      m1.heap.read a.m_Ptr = none ∧
      b.deref m1.heap = some v ∧
      a1.isValid = true ∧ m.heap.read a1.m_Ptr = none ∧ a1.deref m1.heap = some v ∧
      (∀ q, q ≠ a.m_Ptr → q ≠ a1.m_Ptr → m1.heap.read q = m.heap.read q) ∧
      (m.NoLeak → m1.NoLeak) := by
  have hra : m.heap.read a.m_Ptr = some w := ha
  have hrb : m.heap.read b.m_Ptr = some v := hb
  obtain ⟨p, hp⟩ := Option.isSome_iff_exists.mp hal
  obtain ⟨hnn, hfr⟩ := al.fresh m.heap p hp
  have hap : a.m_Ptr ≠ p := IntPtr.ne_of_live_of_fresh m.heap _ _ w hra hfr
  have hbp : b.m_Ptr ≠ p := IntPtr.ne_of_live_of_fresh m.heap _ _ v hrb hfr
  have hok := IntPtr.assign_of_live al a b m.heap w v p hra hrb hp
  have hstep := Machine.step_assign al m i j a b ⟨p⟩ _ hi hj hok
  have hji : j ≠ i := fun e => hij e.symm
  have hframe : ∀ q, q ≠ a.m_Ptr → q ≠ p →
      ((m.heap.write p v).free a.m_Ptr).read q = m.heap.read q := by
    intro q h1 h2
    rw [Heap.read_free_other _ _ q h1, Heap.read_write_other _ _ q v h2]
  refine ⟨_, ⟨p⟩, hstep, ?_, ?_, rfl, Heap.read_free_same _ _, ?_, ?_, hfr, ?_, hframe, ?_⟩
  · simp [Machine.setObj]
  · show m.setObj i (some ⟨p⟩) j = some b
    simp [Machine.setObj, hji, hj]
  · show ((m.heap.write p v).free a.m_Ptr).read b.m_Ptr = some v
    rw [hframe _ (fun e => hne e.symm) hbp]; exact hrb
  · exact (IntPtr.isValid_iff _).mpr hnn
  · show ((m.heap.write p v).free a.m_Ptr).read p = some v
    rw [Heap.read_free_other _ _ p (fun e => hap e.symm)]
    exact Heap.read_write_same _ _ _ hnn
  · intro hleak q hq
    change (((m.heap.write p v).free a.m_Ptr).read q).isSome = true at hq
    by_cases hqp : q = p
    · exact ⟨i, ⟨p⟩, by simp [Machine.setObj], hqp.symm⟩
    · have hqa : q ≠ a.m_Ptr := by
        intro e
        rw [e, Heap.read_free_same] at hq
        cases hq
      rw [hframe q hqa hqp] at hq
      obtain ⟨k, h, hk, hkq⟩ := hleak q hq
      have hki : k ≠ i := by
        intro e
        rw [e, hi] at hk
        have : a = h := Option.some.inj hk
        rw [← this] at hkq
        exact hqa hkq.symm
      exact ⟨k, h, by simp [Machine.setObj, hki, hk], hkq⟩

/-- Witness of C12: `a` owns 20 at address 2, `b` owns 10 at address 1. -/
theorem Machine.assign_releases_old_witness :
    ∃ m1 a1, (Machine.mk ((Heap.empty.write 1 10).write 2 20)
        (fun n => if n = 0 then some ⟨2⟩ else if n = 1 then some ⟨1⟩ else none)).step
          Allocator.bump (.assign 0 1) = .ok m1 ∧ m1.objs 0 = some a1 ∧
      m1.objs 1 = some ⟨1⟩ ∧
      m1.heap.released = (IntPtr.mk 2).m_Ptr :: ((Heap.empty.write 1 10).write 2 20).released ∧
      m1.heap.read (IntPtr.mk 2).m_Ptr = none ∧
      (IntPtr.mk 1).deref m1.heap = some 10 ∧
      a1.isValid = true ∧ ((Heap.empty.write 1 10).write 2 20).read a1.m_Ptr = none ∧
      a1.deref m1.heap = some 10 ∧
      (∀ q, q ≠ (IntPtr.mk 2).m_Ptr → q ≠ a1.m_Ptr →
        m1.heap.read q = ((Heap.empty.write 1 10).write 2 20).read q) ∧
      ((Machine.mk ((Heap.empty.write 1 10).write 2 20)
        (fun n => if n = 0 then some ⟨2⟩ else if n = 1 then some ⟨1⟩ else none)).NoLeak →
        m1.NoLeak) :=
  Machine.assign_releases_old Allocator.bump
    (Machine.mk ((Heap.empty.write 1 10).write 2 20)
      (fun n => if n = 0 then some ⟨2⟩ else if n = 1 then some ⟨1⟩ else none))
    0 1 ⟨2⟩ ⟨1⟩ 20 10 (by decide) rfl rfl (by decide) (by decide) (by decide)
    (by simp [Allocator.bump_alloc])

/-! ## Dereference of an empty handle -/

/-- Counterexample to C13 as stated: on the empty handle `IntPtr(NULL)`,
`operator *` ends in undefined behaviour and not in an explicit failure,
and `operator ->` completes and returns the null pointer, the access
through which is again undefined and not an explicit failure. -/
theorem IntPtr.star_empty_not_loud :
    (IntPtr.ctor NULL).star Heap.empty = .undefined ∧
    (¬ ∃ e, (IntPtr.ctor NULL).star Heap.empty = .thrown e) ∧
    (IntPtr.ctor NULL).arrow = NULL ∧
    (¬ ∃ e, (IntPtr.ctor NULL).arrowAccess Heap.empty = .thrown e) := by
  refine ⟨by decide, ?_, rfl, ?_⟩
  · rintro ⟨e, he⟩
    have h : (IntPtr.ctor NULL).star Heap.empty = .undefined := by decide
    rw [h] at he; cases he
  · rintro ⟨e, he⟩
    have h : (IntPtr.ctor NULL).arrowAccess Heap.empty = .undefined := by decide
    rw [h] at he; cases he

/-- C13, amended: dereferencing an empty handle never yields a value and
never fails explicitly: for every empty handle and every free store,
`operator *` has undefined behaviour, `operator ->` returns the null
pointer, and the access through that pointer has undefined behaviour. -/
theorem IntPtr.star_empty_undefined (h : IntPtr) (σ : Heap) (hv : h.isValid = false) :
    h.star σ = .undefined ∧ h.arrow = NULL ∧ h.arrowAccess σ = .undefined ∧
    (∀ x, h.star σ ≠ .ok x) ∧ (∀ e, h.star σ ≠ .thrown e) ∧
    (∀ x, h.arrowAccess σ ≠ .ok x) ∧ (∀ e, h.arrowAccess σ ≠ .thrown e) := by
  have hn : h.m_Ptr = NULL := (IntPtr.isValid_false_iff h).mp hv
  have h1 : h.star σ = .undefined := by
    simp [IntPtr.star, IntPtr.deref, hn, Heap.read_null]
  have h2 : h.arrowAccess σ = .undefined := by
    simp [IntPtr.arrowAccess, IntPtr.arrow, hn, Heap.read_null]
  refine ⟨h1, hn, h2, ?_, ?_, ?_, ?_⟩
  · intro x e; rw [h1] at e; cases e
  · intro x e; rw [h1] at e; cases e
  · intro x e; rw [h2] at e; cases e
  · intro x e; rw [h2] at e; cases e

/-- Witness of amended C13: the handle `IntPtr(NULL)` on a free store with a
live object. -/
theorem IntPtr.star_empty_undefined_witness :
    (IntPtr.ctor NULL).star (Heap.empty.write 1 10) = .undefined ∧
    (IntPtr.ctor NULL).arrow = NULL ∧
    (IntPtr.ctor NULL).arrowAccess (Heap.empty.write 1 10) = .undefined ∧
    (∀ x, (IntPtr.ctor NULL).star (Heap.empty.write 1 10) ≠ .ok x) ∧
    (∀ e, (IntPtr.ctor NULL).star (Heap.empty.write 1 10) ≠ .thrown e) ∧
    (∀ x, (IntPtr.ctor NULL).arrowAccess (Heap.empty.write 1 10) ≠ .ok x) ∧
    (∀ e, (IntPtr.ctor NULL).arrowAccess (Heap.empty.write 1 10) ≠ .thrown e) :=
  IntPtr.star_empty_undefined (IntPtr.ctor NULL) (Heap.empty.write 1 10) (by decide)

/-! ## The class `T` with two `IntPtr` members -/

namespace TwoMember

/-- A completed copy construction of a `T` whose two members own live
objects, in explicit form. -/
theorem T.copy_both_of_live (al : Allocator) (other : T) (σ : Heap) (v1 v2 : Int) (p1 p2 : Ptr)
    (h1 : σ.read other.m_Val1.m_Ptr = some v1) (h2 : σ.read other.m_Val2.m_Ptr = some v2)
    (hp1 : al.alloc σ = some p1) (hp2 : al.alloc (σ.write p1 v1) = some p2) :
    T.copy al other σ = .ok (⟨⟨p1⟩, ⟨p2⟩⟩, (σ.write p1 v1).write p2 v2) := by
  have hv1 : other.m_Val1.isValid = true := IntPtr.isValid_of_deref _ σ v1 h1
  have hv2 : other.m_Val2.isValid = true := IntPtr.isValid_of_deref _ σ v2 h2
  have hne : other.m_Val2.m_Ptr ≠ p1 :=
    IntPtr.ne_of_live_of_fresh σ _ _ v2 h2 (al.fresh σ p1 hp1).2
  have h2b : (σ.write p1 v1).read other.m_Val2.m_Ptr = some v2 := by
    rw [Heap.read_write_other σ p1 _ v1 hne]; exact h2
  simp [T.copy, IntPtr.copy_of_valid al _ σ v1 p1 hv1 h1 hp1,
    IntPtr.copy_of_valid al _ (σ.write p1 v1) v2 p2 hv2 h2b hp2]

/-- A completed destruction of a `T` whose two members own distinct live
objects, in explicit form. -/
theorem T.dtor_both_of_live (self : T) (σ : Heap) (w1 w2 : Int)
    (h1 : σ.read self.m_Val1.m_Ptr = some w1) (h2 : σ.read self.m_Val2.m_Ptr = some w2)
    (hne : self.m_Val1.m_Ptr ≠ self.m_Val2.m_Ptr) :
    T.dtor self σ = some ((σ.free self.m_Val2.m_Ptr).free self.m_Val1.m_Ptr) := by
  have h1b : (σ.free self.m_Val2.m_Ptr).read self.m_Val1.m_Ptr = some w1 := by
    rw [Heap.read_free_other σ _ _ hne]; exact h1
  simp [T.dtor, IntPtr.dtor_of_live _ σ w2 h2, IntPtr.dtor_of_live _ _ w1 h1b]

end TwoMember

/-- C14: for every `t1` whose two members own live objects with values v1
and v2 and every `t2` whose two members own two distinct live objects not
shared with `t1`, with an allocator that never fails, `t2 = t1` completes
and afterwards `t2.GetVal1()` and `t2.GetVal2()` are v1 and v2 and
`t1.GetVal1()` and `t1.GetVal2()` are still v1 and v2; likewise the copy
construction of a `T` from `t1` completes and the copy and `t1` both return
v1 and v2. -/
theorem TwoMember.assign_copies_both (al : Allocator) (hal : al.NeverFails)
    (t2 t1 : TwoMember.T) (σ : Heap) (v1 v2 w1 w2 : Int)
    (h1 : t1.GetVal1 σ = some v1) (h2 : t1.GetVal2 σ = some v2)
    (k1 : t2.GetVal1 σ = some w1) (k2 : t2.GetVal2 σ = some w2)
    (hne : t2.m_Val1.m_Ptr ≠ t2.m_Val2.m_Ptr)
    (hne11 : t2.m_Val1.m_Ptr ≠ t1.m_Val1.m_Ptr) (hne12 : t2.m_Val1.m_Ptr ≠ t1.m_Val2.m_Ptr)
    (hne21 : t2.m_Val2.m_Ptr ≠ t1.m_Val1.m_Ptr) (hne22 : t2.m_Val2.m_Ptr ≠ t1.m_Val2.m_Ptr) :
    (∃ t σ1, TwoMember.T.assign al t2 t1 σ = .ok (t, σ1) ∧
      t.GetVal1 σ1 = some v1 ∧ t.GetVal2 σ1 = some v2 ∧
      t1.GetVal1 σ1 = some v1 ∧ t1.GetVal2 σ1 = some v2) ∧
    (∃ c σ1, TwoMember.T.copy al t1 σ = .ok (c, σ1) ∧
      c.GetVal1 σ1 = some v1 ∧ c.GetVal2 σ1 = some v2 ∧
      t1.GetVal1 σ1 = some v1 ∧ t1.GetVal2 σ1 = some v2) := by
  have r1 : σ.read t1.m_Val1.m_Ptr = some v1 := h1
  have r2 : σ.read t1.m_Val2.m_Ptr = some v2 := h2
  have s1 : σ.read t2.m_Val1.m_Ptr = some w1 := k1
  have s2 : σ.read t2.m_Val2.m_Ptr = some w2 := k2
  obtain ⟨p1, hp1⟩ := Option.isSome_iff_exists.mp (hal σ)
  obtain ⟨hp1n, hp1f⟩ := al.fresh σ p1 hp1
  obtain ⟨p2, hp2⟩ := Option.isSome_iff_exists.mp (hal (σ.write p1 v1))
  obtain ⟨hp2n, hp2f⟩ := al.fresh _ p2 hp2
  have hcopy := TwoMember.T.copy_both_of_live al t1 σ v1 v2 p1 p2 r1 r2 hp1 hp2
  -- the two clones are apart from each other and from the four old objects
  have hp12 : p1 ≠ p2 :=
    IntPtr.ne_of_live_of_fresh _ _ _ v1 (Heap.read_write_same σ p1 v1 hp1n) hp2f
  have e11 : t1.m_Val1.m_Ptr ≠ p1 := IntPtr.ne_of_live_of_fresh σ _ _ v1 r1 hp1f
  have e21 : t1.m_Val2.m_Ptr ≠ p1 := IntPtr.ne_of_live_of_fresh σ _ _ v2 r2 hp1f
  have f11 : t2.m_Val1.m_Ptr ≠ p1 := IntPtr.ne_of_live_of_fresh σ _ _ w1 s1 hp1f
  have f21 : t2.m_Val2.m_Ptr ≠ p1 := IntPtr.ne_of_live_of_fresh σ _ _ w2 s2 hp1f
  have other_p2 : ∀ q x, q ≠ p1 → σ.read q = some x → q ≠ p2 := by
    intro q x hq hx
    refine IntPtr.ne_of_live_of_fresh (σ.write p1 v1) _ _ x ?_ hp2f
    rw [Heap.read_write_other σ p1 q v1 hq]; exact hx
  have e12 := other_p2 _ v1 e11 r1
  have e22 := other_p2 _ v2 e21 r2
  have f12 := other_p2 _ w1 f11 s1
  have f22 := other_p2 _ w2 f21 s2
  -- reads after the two clones are made
  have rd : ∀ q, q ≠ p1 → q ≠ p2 → ((σ.write p1 v1).write p2 v2).read q = σ.read q := by
    intro q hq1 hq2
    rw [Heap.read_write_other _ p2 q v2 hq2, Heap.read_write_other σ p1 q v1 hq1]
  have c1 : ((σ.write p1 v1).write p2 v2).read p1 = some v1 := by
    rw [Heap.read_write_other _ p2 p1 v2 hp12]; exact Heap.read_write_same σ p1 v1 hp1n
  have c2 : ((σ.write p1 v1).write p2 v2).read p2 = some v2 :=
    Heap.read_write_same _ p2 v2 hp2n
  constructor
  · have hd := TwoMember.T.dtor_both_of_live ⟨⟨t2.m_Val1.m_Ptr⟩, ⟨t2.m_Val2.m_Ptr⟩⟩
      ((σ.write p1 v1).write p2 v2) w1 w2
      (by rw [rd _ f11 f12]; exact s1) (by rw [rd _ f21 f22]; exact s2) hne
    have rf : ∀ q, q ≠ t2.m_Val1.m_Ptr → q ≠ t2.m_Val2.m_Ptr →
        ((((σ.write p1 v1).write p2 v2).free t2.m_Val2.m_Ptr).free t2.m_Val1.m_Ptr).read q
          = ((σ.write p1 v1).write p2 v2).read q := by
      intro q hq1 hq2
      rw [Heap.read_free_other _ _ q hq1, Heap.read_free_other _ _ q hq2]
    refine ⟨⟨⟨p1⟩, ⟨p2⟩⟩,
      (((σ.write p1 v1).write p2 v2).free t2.m_Val2.m_Ptr).free t2.m_Val1.m_Ptr,
      ?_, ?_, ?_, ?_, ?_⟩
    · simp [TwoMember.T.assign, hcopy, TwoMember.T.Swap, IntPtr.Swap, hd]
    · show (_ : Heap).read p1 = some v1
      rw [rf p1 (fun e => f11 e.symm) (fun e => f21 e.symm)]; exact c1
    · show (_ : Heap).read p2 = some v2
      rw [rf p2 (fun e => f12 e.symm) (fun e => f22 e.symm)]; exact c2
    · show (_ : Heap).read t1.m_Val1.m_Ptr = some v1
      rw [rf _ (fun e => hne11 e.symm) (fun e => hne21 e.symm), rd _ e11 e12]; exact r1
    · show (_ : Heap).read t1.m_Val2.m_Ptr = some v2
      rw [rf _ (fun e => hne12 e.symm) (fun e => hne22 e.symm), rd _ e21 e22]; exact r2
  · refine ⟨⟨⟨p1⟩, ⟨p2⟩⟩, _, hcopy, c1, c2, ?_, ?_⟩
    · show (_ : Heap).read t1.m_Val1.m_Ptr = some v1
      rw [rd _ e11 e12]; exact r1
    · show (_ : Heap).read t1.m_Val2.m_Ptr = some v2
      rw [rd _ e21 e22]; exact r2

/-- Witness of C14: the test block of the source, `t1` over 10 and 20 at
addresses 1 and 2, `t2` over 1 and 2 at addresses 3 and 4. -/
theorem TwoMember.assign_copies_both_witness :
    (∃ t σ1, TwoMember.T.assign Allocator.bump (TwoMember.T.ctor 3 4) (TwoMember.T.ctor 1 2)
        ((((Heap.empty.write 1 10).write 2 20).write 3 1).write 4 2) = .ok (t, σ1) ∧
      t.GetVal1 σ1 = some 10 ∧ t.GetVal2 σ1 = some 20 ∧
      (TwoMember.T.ctor 1 2).GetVal1 σ1 = some 10 ∧
      (TwoMember.T.ctor 1 2).GetVal2 σ1 = some 20) ∧
    (∃ c σ1, TwoMember.T.copy Allocator.bump (TwoMember.T.ctor 1 2)
        ((((Heap.empty.write 1 10).write 2 20).write 3 1).write 4 2) = .ok (c, σ1) ∧
      c.GetVal1 σ1 = some 10 ∧ c.GetVal2 σ1 = some 20 ∧
      (TwoMember.T.ctor 1 2).GetVal1 σ1 = some 10 ∧
      (TwoMember.T.ctor 1 2).GetVal2 σ1 = some 20) :=
  TwoMember.assign_copies_both Allocator.bump Allocator.bump_neverFails
    (TwoMember.T.ctor 3 4) (TwoMember.T.ctor 1 2)
    ((((Heap.empty.write 1 10).write 2 20).write 3 1).write 4 2) 10 20 1 2
    (by decide) (by decide) (by decide) (by decide)
    (by decide) (by decide) (by decide) (by decide) (by decide)

/-! ## Exception safety of the copy assignment of the class with two members -/

namespace TwoMember

/-- When the clone of the first member cannot be allocated, the copy
construction of a `T` throws with the free store as it was. -/
theorem T.copy_first_bad_alloc (al : Allocator) (other : T) (σ : Heap)
    (hv : other.m_Val1.isValid = true) (hp : al.alloc σ = none) :
    T.copy al other σ = .thrown σ := by
  simp [T.copy, IntPtr.copy_of_bad_alloc al other.m_Val1 σ hv hp]

/-- When the first member has been copied and the clone of the second cannot
be allocated, the copy construction of a `T` throws after the first clone
is destroyed, and every address reads as before. -/
theorem T.copy_second_bad_alloc (al : Allocator) (other : T) (σ σm : Heap) (c : IntPtr)
    (h1 : other.m_Val1.isValid = true → (σ.read other.m_Val1.m_Ptr).isSome = true)
    (hc : IntPtr.copy al other.m_Val1 σ = .ok (c, σm))
    (hv2 : other.m_Val2.isValid = true) (hp : al.alloc σm = none) :
    ∃ σ1, T.copy al other σ = .thrown σ1 ∧ ∀ q, σ1.read q = σ.read q := by
  obtain ⟨c1, σ2, hok, hv, hfresh, hd, hframe⟩ :=
    IntPtr.copy_spec al other.m_Val1 σ h1 (IntPtr.alloc_of_copy_ok al _ σ _ hc)
  rw [hc] at hok
  injection hok with hpair
  injection hpair with e1 e2
  subst e1; subst e2
  have hclive : c.isValid = true → (σm.read c.m_Ptr).isSome = true := by
    intro hcv
    have : σm.read c.m_Ptr = other.m_Val1.deref σ := hd
    rw [this]; exact h1 (hv ▸ hcv)
  obtain ⟨σ3, hdt, hd1, hd2, hdframe⟩ := IntPtr.dtor_spec c σm hclive
  refine ⟨σ3, ?_, ?_⟩
  · simp [T.copy, hc, IntPtr.copy_of_bad_alloc al other.m_Val2 σm hv2 hp, hdt]
  · intro q
    by_cases hcv : c.isValid = true
    · by_cases hq : q = c.m_Ptr
      · rw [hq, hd1 hcv, hfresh hcv]
      · rw [hdframe q hq, hframe q hq]
    · have hf : c.isValid = false := by simpa using hcv
      have hn : c.m_Ptr = NULL := (IntPtr.isValid_false_iff c).mp hf
      rw [hd2 hf]
      by_cases hq : q = NULL
      · rw [hq, Heap.read_null, Heap.read_null]
      · exact hframe q (by rw [hn]; exact hq)

end TwoMember

/-- C21: for the class with two `IntPtr` members, when building the
temporary fails, either on the clone of the first member or on the clone of
the second member after the first was copied, `t2 = t1` throws; `t2` still
holds its two pointers, every address of the free store reads as before, so
the pointees of `t2` and of `t1` are unchanged. -/
theorem TwoMember.assign_strong_guarantee (al : Allocator) (t2 t1 : TwoMember.T) (σ : Heap)
    (h1 : t1.m_Val1.isValid = true → (σ.read t1.m_Val1.m_Ptr).isSome = true)
    (hfail : (t1.m_Val1.isValid = true ∧ al.alloc σ = none) ∨
      (∃ c σm, IntPtr.copy al t1.m_Val1 σ = .ok (c, σm) ∧
        t1.m_Val2.isValid = true ∧ al.alloc σm = none)) :
    ∃ σ1, TwoMember.T.assign al t2 t1 σ = .thrown (t2, σ1) ∧
      (∀ q, σ1.read q = σ.read q) ∧
      t2.GetVal1 σ1 = t2.GetVal1 σ ∧ t2.GetVal2 σ1 = t2.GetVal2 σ ∧
      t1.GetVal1 σ1 = t1.GetVal1 σ ∧ t1.GetVal2 σ1 = t1.GetVal2 σ := by
  have hcopy : ∃ σ1, TwoMember.T.copy al t1 σ = .thrown σ1 ∧ ∀ q, σ1.read q = σ.read q := by
    rcases hfail with ⟨hv, hp⟩ | ⟨c, σm, hc, hv2, hp⟩
    · exact ⟨σ, TwoMember.T.copy_first_bad_alloc al t1 σ hv hp, fun _ => rfl⟩
    · exact TwoMember.T.copy_second_bad_alloc al t1 σ σm c h1 hc hv2 hp
  obtain ⟨σ1, hthrow, hread⟩ := hcopy
  refine ⟨σ1, ?_, hread, hread _, hread _, hread _, hread _⟩
  simp [TwoMember.T.assign, hthrow]

/-- Witness of C21: `t1` over 10 and 20 at addresses 1 and 2, `t2` over 1
and 2 at addresses 3 and 4, in an arena with room for five objects: the
first member is cloned at address 5 and the clone of the second fails. -/
theorem TwoMember.assign_strong_guarantee_witness :
    ∃ σ1, TwoMember.T.assign (Allocator.arena 5) (TwoMember.T.ctor 3 4) (TwoMember.T.ctor 1 2)
        ((((Heap.empty.write 1 10).write 2 20).write 3 1).write 4 2)
          = .thrown (TwoMember.T.ctor 3 4, σ1) ∧
      (∀ q, σ1.read q = ((((Heap.empty.write 1 10).write 2 20).write 3 1).write 4 2).read q) ∧
      (TwoMember.T.ctor 3 4).GetVal1 σ1 = (TwoMember.T.ctor 3 4).GetVal1
        ((((Heap.empty.write 1 10).write 2 20).write 3 1).write 4 2) ∧
      (TwoMember.T.ctor 3 4).GetVal2 σ1 = (TwoMember.T.ctor 3 4).GetVal2
        ((((Heap.empty.write 1 10).write 2 20).write 3 1).write 4 2) ∧
      (TwoMember.T.ctor 1 2).GetVal1 σ1 = (TwoMember.T.ctor 1 2).GetVal1
        ((((Heap.empty.write 1 10).write 2 20).write 3 1).write 4 2) ∧
      (TwoMember.T.ctor 1 2).GetVal2 σ1 = (TwoMember.T.ctor 1 2).GetVal2
        ((((Heap.empty.write 1 10).write 2 20).write 3 1).write 4 2) :=
  TwoMember.assign_strong_guarantee (Allocator.arena 5) (TwoMember.T.ctor 3 4)
    (TwoMember.T.ctor 1 2) ((((Heap.empty.write 1 10).write 2 20).write 3 1).write 4 2)
    (fun _ => by decide)
    (Or.inr ⟨⟨5⟩, ((((Heap.empty.write 1 10).write 2 20).write 3 1).write 4 2).write 5 10,
      by decide, by decide, by decide⟩)

/-! ## The class with two `int` members -/

/-- C23: for the class with the two `int` members, for all `t1` and `t2`,
the swap-based copy assignment leaves `t2` exactly as the implicit
member-by-member copy assignment does; after either, `t2.GetX()` is
`t1.GetX()` and `t2.GetY()` is `t1.GetY()`; and the temporary that is
swapped is a copy of `t1`, which is never written. -/
theorem IntPair.assignSwap_eq_assignMemberwise (t2 t1 : IntPair.T) :
    IntPair.T.assignSwap t2 t1 = IntPair.T.assignMemberwise t2 t1 ∧
    (IntPair.T.assignSwap t2 t1).GetX = t1.GetX ∧
    (IntPair.T.assignSwap t2 t1).GetY = t1.GetY ∧
    (IntPair.T.assignMemberwise t2 t1).GetX = t1.GetX ∧
    (IntPair.T.assignMemberwise t2 t1).GetY = t1.GetY ∧
    t2.Swap (IntPair.T.copy t1) = (t1, t2) := by
  cases t1
  cases t2
  exact ⟨rfl, rfl, rfl, rfl, rfl, rfl⟩

/-! ## The class that owns a `Big` -/

/-- C24: for the class with the member `Big* m_Big`, when `t1` holds a live
`Big` of value v, `t2` is empty or holds another live `Big`, and the
allocation succeeds, `t2 = t1` completes; the output grows by exactly the
one line of the copy constructor of `Big` and by no line of its copy
assignment, and afterwards `t2.GetBig()->GetVal()` and
`t1.GetBig()->GetVal()` are both v. -/
theorem BigOwner.assign_one_copy (al : Allocator) (t2 t1 : BigOwner.T) (σ : Heap)
    (out : List String) (v : Int)
    (h1 : t1.GetBigVal σ = some v)
    (h2 : t2.m_Big ≠ NULL → (σ.read t2.m_Big).isSome = true)
    (hne : t2.m_Big ≠ t1.m_Big) (hal : (al.alloc σ).isSome = true) :
    ∃ t σ1 out1, BigOwner.T.assign al t2 t1 σ out = .ok (t, σ1, out1) ∧
      out1 = out ++ ["Big::Big(const Big& other)"] ∧
      (out1.drop out.length).count "Big::Big(const Big& other)" = 1 ∧
      (out1.drop out.length).count "Big::operator =(const Big& other)" = 0 ∧
      t.GetBigVal σ1 = some v ∧ t1.GetBigVal σ1 = some v := by
  have hr1 : σ.read t1.m_Big = some v := by
    cases hr : σ.read t1.m_Big with
    | none => simp [BigOwner.T.GetBigVal, BigOwner.T.GetBig, hr] at h1
    | some x =>
      simp [BigOwner.T.GetBigVal, BigOwner.T.GetBig, hr, BigOwner.Big.GetVal,
        BigOwner.Big.ctor] at h1
      rw [h1]
  have hnn1 : t1.m_Big ≠ NULL := by
    intro e; rw [e, Heap.read_null] at hr1; cases hr1
  obtain ⟨p, hp⟩ := Option.isSome_iff_exists.mp hal
  obtain ⟨hpn, hpf⟩ := al.fresh σ p hp
  have h1p : t1.m_Big ≠ p := IntPtr.ne_of_live_of_fresh σ _ _ v hr1 hpf
  have hcopy : BigOwner.T.copy al t1 σ out
      = .ok (⟨p⟩, σ.write p v, out ++ ["Big::Big(const Big& other)"]) := by
    simp [BigOwner.T.copy, hnn1, hp, hr1, BigOwner.Big.copy]
  have hcount : ((out ++ ["Big::Big(const Big& other)"]).drop out.length).count
        "Big::Big(const Big& other)" = 1 ∧
      ((out ++ ["Big::Big(const Big& other)"]).drop out.length).count
        "Big::operator =(const Big& other)" = 0 := by
    rw [List.drop_left]
    exact ⟨by decide, by decide⟩
  have hgetp : ∀ τ : Heap, τ.read p = some v →
      (BigOwner.T.mk p).GetBigVal τ = some v := by
    intro τ h
    simp [BigOwner.T.GetBigVal, BigOwner.T.GetBig, h, BigOwner.Big.GetVal, BigOwner.Big.ctor]
  have hget1 : ∀ τ : Heap, τ.read t1.m_Big = some v → t1.GetBigVal τ = some v := by
    intro τ h
    simp [BigOwner.T.GetBigVal, BigOwner.T.GetBig, h, BigOwner.Big.GetVal, BigOwner.Big.ctor]
  have hwp : (σ.write p v).read p = some v := Heap.read_write_same σ p v hpn
  have hw1 : (σ.write p v).read t1.m_Big = some v := by
    rw [Heap.read_write_other σ p _ v h1p]; exact hr1
  by_cases hn2 : t2.m_Big = NULL
  · refine ⟨⟨p⟩, σ.write p v, _, ?_, rfl, hcount.1, hcount.2, hgetp _ hwp, hget1 _ hw1⟩
    simp [BigOwner.T.assign, hcopy, BigOwner.T.Swap, BigOwner.T.dtor, Heap.delete, hn2]
  · obtain ⟨w, hr2⟩ := Option.isSome_iff_exists.mp (h2 hn2)
    have h2p : t2.m_Big ≠ p := IntPtr.ne_of_live_of_fresh σ _ _ w hr2 hpf
    have hw2 : (σ.write p v).read t2.m_Big = some w := by
      rw [Heap.read_write_other σ p _ v h2p]; exact hr2
    refine ⟨⟨p⟩, (σ.write p v).free t2.m_Big, _, ?_, rfl, hcount.1, hcount.2,
      hgetp _ ?_, hget1 _ ?_⟩
    · simp [BigOwner.T.assign, hcopy, BigOwner.T.Swap, BigOwner.T.dtor, Heap.delete, hn2, hw2]
    · rw [Heap.read_free_other _ _ p (fun e => h2p e.symm)]; exact hwp
    · rw [Heap.read_free_other _ _ _ (fun e => hne e.symm)]; exact hw1

/-- Witness of C24: the test of the source, `T t1(new Big(10));
T t2(new Big(1)); t2 = t1;`, with the two `Big` at addresses 1 and 2. -/
theorem BigOwner.assign_one_copy_witness :
    ∃ t σ1 out1, BigOwner.T.assign Allocator.bump (BigOwner.T.ctor 2) (BigOwner.T.ctor 1)
        ((Heap.empty.write 1 10).write 2 1) [] = .ok (t, σ1, out1) ∧
      out1 = [] ++ ["Big::Big(const Big& other)"] ∧
      (out1.drop ([] : List String).length).count "Big::Big(const Big& other)" = 1 ∧
      (out1.drop ([] : List String).length).count "Big::operator =(const Big& other)" = 0 ∧
      t.GetBigVal σ1 = some 10 ∧ (BigOwner.T.ctor 1).GetBigVal σ1 = some 10 :=
  BigOwner.assign_one_copy Allocator.bump (BigOwner.T.ctor 2) (BigOwner.T.ctor 1)
    ((Heap.empty.write 1 10).write 2 1) [] 10 (by decide) (fun _ => by decide) (by decide)
    (by simp [Allocator.bump_alloc])

end OopCpp
